import Mathlib

/-!
# Verification of the D3pixelbot canvas core against its specification

Shallow embedding of the chunked canvas engine, the virtual-chunk viewport
manager, the recording codec (disk writer + disk reader) and the disk
replayer of D3pixelbot.  All definitions are translated from the Go source
(`canvasdiskreader.go`, which bundles the disk reader, `canvas.go` and the
disk writer).  The chunk implementation and the `pixelSize` coordinate
helpers are not part of the corpus; those few definitions are modelled from
the specification and are marked as such in their doc comments.

Machine integers are modelled as `Int`/`Nat` with explicit reduction
modulo `2^w` where the Go code truncates (the binary codec).
-/

deriving instance DecidableEq for Except

namespace D3pixelbot

/-! ## Basic geometry (image.Point, image.Rectangle, pixelSize, chunkCoordinate) -/

/-- `image.Point`: a pixel coordinate. -/
structure Point where
  x : Int
  y : Int
deriving DecidableEq, Repr

/-- `image.Rectangle`: min is inclusive, max is exclusive. -/
structure Rect where
  min : Point
  max : Point
deriving DecidableEq, Repr

/-- `pixelSize`: the chunk size of a canvas. -/
structure PixelSize where
  x : Int
  y : Int
deriving DecidableEq, Repr

/-- `chunkCoordinate`: a coordinate in the chunk grid. -/
structure ChunkCoord where
  x : Int
  y : Int
deriving DecidableEq, Repr

/-- `chunkRectangle`: a rectangle of chunk coordinates (min inclusive, max exclusive). -/
structure ChunkRect where
  min : ChunkCoord
  max : ChunkCoord
deriving DecidableEq, Repr

/-- `image.Rectangle.Canon`: swaps min and max per axis where needed. -/
def ChunkRect.canon (r : ChunkRect) : ChunkRect :=
  { min := ⟨Min.min r.min.x r.max.x, Min.min r.min.y r.max.y⟩
    max := ⟨Max.max r.min.x r.max.x, Max.max r.min.y r.max.y⟩ }

/-- Membership of a point in a rectangle (Go `image.Point.In`). -/
def Point.inRect (p : Point) (r : Rect) : Bool :=
  r.min.x ≤ p.x && p.x < r.max.x && r.min.y ≤ p.y && p.y < r.max.y

/-- Modelled from the spec: `pixelSize.getChunkCoord` is not in the corpus.
Spec §4.2: `getChunkCoord(pos) = (⌊(pos.x + Ox) / W⌋, ⌊(pos.y + Oy) / H⌋)`,
with floor-division semantics for negative values. -/
def PixelSize.getChunkCoord (s : PixelSize) (pos : Point) (origin : Point) : ChunkCoord :=
  ⟨(pos.x + origin.x).fdiv s.x, (pos.y + origin.y).fdiv s.y⟩

/-- Ceiling division on `Int` (for positive divisors), used to close a chunk range. -/
def cdiv (a b : Int) : Int := -((-a).fdiv b)

/-- Modelled from the spec: `pixelSize.getOuterChunkRect` is not in the corpus.
Spec §4.2: the chunk coordinates whose pixel rectangles intersect `pixelRect`. -/
def PixelSize.getOuterChunkRect (s : PixelSize) (r : Rect) (origin : Point) : ChunkRect :=
  { min := ⟨(r.min.x + origin.x).fdiv s.x, (r.min.y + origin.y).fdiv s.y⟩
    max := ⟨cdiv (r.max.x + origin.x) s.x, cdiv (r.max.y + origin.y) s.y⟩ }

/-- Modelled from the spec: `pixelSize.getInnerChunkRect` is not in the corpus.
Spec §4.2: the chunk coordinates whose pixel rectangles are fully contained
in `pixelRect`. -/
def PixelSize.getInnerChunkRect (s : PixelSize) (r : Rect) (origin : Point) : ChunkRect :=
  { min := ⟨cdiv (r.min.x + origin.x) s.x, cdiv (r.min.y + origin.y) s.y⟩
    max := ⟨(r.max.x + origin.x).fdiv s.x, (r.max.y + origin.y).fdiv s.y⟩ }

/-- The pixel rectangle allocated for chunk coordinate `coord`, exactly as in
`canvas.getChunk` (createIfNonexistent branch) and in the broadcaster's
`getVirtualChunks`:
`min := image.Point{coord.X*can.ChunkSize.X - can.Origin.X, coord.Y*can.ChunkSize.Y - can.Origin.X}`.
Note: the source subtracts `Origin.X` on the Y axis as well. -/
def chunkTileRect (s : PixelSize) (origin : Point) (coord : ChunkCoord) : Rect :=
  let min : Point := ⟨coord.x * s.x - origin.x, coord.y * s.y - origin.x⟩
  let max : Point := ⟨min.x + s.x, min.y + s.y⟩
  ⟨min, max⟩

/-- The pixel rectangle that the specification (§3) assigns to a chunk
coordinate: minimum corner `(cx·W − Ox, cy·H − Oy)`, size `W × H`.
This definition follows the spec's words, for comparison with
`chunkTileRect` (which follows the source). -/
def specChunkRect (s : PixelSize) (origin : Point) (coord : ChunkCoord) : Rect :=
  let min : Point := ⟨coord.x * s.x - origin.x, coord.y * s.y - origin.y⟩
  let max : Point := ⟨min.x + s.x, min.y + s.y⟩
  ⟨min, max⟩

/-! ## Recording codec: disk writer (canvasdiskwriter.go)

The writer emits little-endian binary into a gzip stream.  Bytes are
modelled as `Nat` values `< 256`; an `Int` field of width `w` is written
as its two's-complement representation, i.e. reduced `mod 2^w`. -/

/-- Little-endian encoding of `n % 2^(8k)` in `k` bytes. -/
def leBytes (k : Nat) (n : Nat) : List Nat :=
  match k with
  | 0 => []
  | k + 1 => n % 256 :: leBytes k (n / 256)

/-- Two's-complement little-endian encoding of an `Int` in `k` bytes. -/
def leBytesI (k : Nat) (z : Int) : List Nat :=
  leBytes k (z.emod ((2 : Int) ^ (8 * k))).toNat

/-- The header written by `canvas.newCanvasDiskWriter`: the struct literally
contains `MagicNumber uint32; Version uint16; ChunkWidth, ChunkHeight uint32;
PaletteSize uint16` — there is no `Time` field. -/
def writeHeader (chunkW chunkH paletteSize : Nat) : List Nat :=
  leBytes 4 1128616528 ++ leBytes 2 1 ++ leBytes 4 chunkW ++ leBytes 4 chunkH ++
    leBytes 2 paletteSize

/-- `canvasDiskWriter.handleSetPixel` frame: `DataType uint8; X, Y int32;
R, G, B uint8` (the color comes from the palette entry at `colorIndex`).
No `Time` field is written. -/
def writeSetPixel (x y : Int) (r g b : Nat) : List Nat :=
  [10] ++ leBytesI 4 x ++ leBytesI 4 y ++ [r % 256, g % 256, b % 256]

/-- `canvasDiskWriter.handleInvalidateRect` frame: `DataType uint8;
MinX, MinY, MaxX, MaxY int32`.  No `Time` field is written. -/
def writeInvalidateRect (r : Rect) : List Nat :=
  [20] ++ leBytesI 4 r.min.x ++ leBytesI 4 r.min.y ++ leBytesI 4 r.max.x ++ leBytesI 4 r.max.y

/-- `canvasDiskWriter.handleInvalidateAll` frame: a single `DataType uint8`
byte.  No `Time` field is written. -/
def writeInvalidateAll : List Nat := [21]

/-- `canvasDiskWriter.handleSetImage` frame: `DataType uint8; X, Y int32;
Width, Height uint16; Size uint32` followed by `Size` bytes of RGBA data.
No `Time` field is written. -/
def writeSetImage (x y : Int) (w h : Nat) (data : List Nat) : List Nat :=
  [30] ++ leBytesI 4 x ++ leBytesI 4 y ++ leBytes 2 w ++ leBytes 2 h ++
    leBytes 4 data.length ++ data.map (· % 256)

/-! ## Recording codec: disk reader (newCanvasDiskReader) -/

/-- Take `k` bytes from the stream; `none` models a `binary.Read` error
(EOF / short read). -/
def readBytes (k : Nat) (bs : List Nat) : Option (List Nat × List Nat) :=
  if bs.length < k then none else some (bs.take k, bs.drop k)

/-- Little-endian value of a byte list (first byte least significant). -/
def leVal (bytes : List Nat) : Nat :=
  bytes.foldr (fun b acc => b % 256 + 256 * acc) 0

/-- Reinterpret a `k`-byte unsigned value as two's-complement. -/
def toSigned (k : Nat) (n : Nat) : Int :=
  if n < 2 ^ (8 * k - 1) then (n : Int) else (n : Int) - 2 ^ (8 * k)

/-- Errors raised by `parseHeader` in `newCanvasDiskReader`. -/
inductive HeaderError where
  | readError
  | wrongFormat
  | versionNewer
deriving DecidableEq, Repr

/-- Parsed header contents: recording start time (`time.Unix(0, dat.Time)`,
kept as nanoseconds) and the chunk size. -/
structure Header where
  time : Int
  chunkWidth : Nat
  chunkHeight : Nat
deriving DecidableEq, Repr

/-- `parseHeader` from `newCanvasDiskReader`: reads the struct `MagicNumber
uint32; Version uint16; Time int64; ChunkWidth, ChunkHeight uint32;
Reserved uint16` (24 bytes) in one `binary.Read`, then rejects a wrong
magic number and rejects `Version > 1`. -/
def parseHeader (bs : List Nat) : Except HeaderError (Header × List Nat) :=
  match readBytes 24 bs with
  | none => .error .readError
  | some (hdr, rest) =>
    let magic := leVal (hdr.take 4)
    let version := leVal ((hdr.drop 4).take 2)
    let timeN := leVal ((hdr.drop 6).take 8)
    let cw := leVal ((hdr.drop 14).take 4)
    let ch := leVal ((hdr.drop 18).take 4)
    if magic ≠ 1128616528 then .error .wrongFormat
    else if version > 1 then .error .versionNewer
    else .ok (⟨toSigned 8 timeN, cw, ch⟩, rest)

/-- An event recovered from a recording frame by the disk reader's switch. -/
inductive FrameEvent where
  | setPixel (x y : Int) (r g b : Nat)
  | invalidateRect (minX minY maxX maxY : Int)
  | invalidateAll
  | revalidateRect (minX minY maxX maxY : Int)
  | setImage (x y : Int) (w h : Nat) (data : List Nat)
deriving DecidableEq, Repr

/-- Read one event frame exactly as the reader's inner loop does: `DataType
uint8`, then `Time int64`, then the type-specific payload.  A frame whose
`DataType` is not one of 10/20/21/22/30 matches no case of the switch and
is silently skipped (modelled as `none` in the event slot); the loop then
continues with the next frame.  `none` overall models a read error, which
makes the reader leave the current file. -/
def parseFrame (bs : List Nat) : Option ((Int × Option FrameEvent) × List Nat) :=
  match readBytes 1 bs with
  | none => none
  | some (dtb, rest) =>
    let dt := leVal dtb
    match readBytes 8 rest with
    | none => none
    | some (tb, rest) =>
      let t := toSigned 8 (leVal tb)
      if dt = 10 then
        match readBytes 11 rest with
        | none => none
        | some (pb, rest) =>
          some ((t, some (.setPixel (toSigned 4 (leVal (pb.take 4)))
            (toSigned 4 (leVal ((pb.drop 4).take 4)))
            (leVal ((pb.drop 8).take 1)) (leVal ((pb.drop 9).take 1))
            (leVal ((pb.drop 10).take 1)))), rest)
      else if dt = 20 then
        match readBytes 16 rest with
        | none => none
        | some (pb, rest) =>
          some ((t, some (.invalidateRect (toSigned 4 (leVal (pb.take 4)))
            (toSigned 4 (leVal ((pb.drop 4).take 4)))
            (toSigned 4 (leVal ((pb.drop 8).take 4)))
            (toSigned 4 (leVal ((pb.drop 12).take 4))))), rest)
      else if dt = 21 then
        some ((t, some .invalidateAll), rest)
      else if dt = 22 then
        match readBytes 16 rest with
        | none => none
        | some (pb, rest) =>
          some ((t, some (.revalidateRect (toSigned 4 (leVal (pb.take 4)))
            (toSigned 4 (leVal ((pb.drop 4).take 4)))
            (toSigned 4 (leVal ((pb.drop 8).take 4)))
            (toSigned 4 (leVal ((pb.drop 12).take 4))))), rest)
      else if dt = 30 then
        match readBytes 16 rest with
        | none => none
        | some (pb, rest) =>
          let size := leVal ((pb.drop 12).take 4)
          match readBytes size rest with
          | none => none
          | some (data, rest) =>
            some ((t, some (.setImage (toSigned 4 (leVal (pb.take 4)))
              (toSigned 4 (leVal ((pb.drop 4).take 4)))
              (leVal ((pb.drop 8).take 2)) (leVal ((pb.drop 10).take 2)) data)), rest)
      else
        some ((t, none), rest)

/-- Drive `parseFrame` over a whole stream (the reader's inner loop with the
demanded time far in the future).  Stops at a read error, as the reader
then leaves the current file.  Fuel decreases on every frame; `bs.length`
is always sufficient because a frame consumes at least one byte. -/
def parseFramesFuel : Nat → List Nat → List (Int × Option FrameEvent)
  | 0, _ => []
  | fuel + 1, bs =>
    match parseFrame bs with
    | none => []
    | some (fr, rest) => fr :: parseFramesFuel fuel rest

/-- Parse all event frames of a stream. -/
def parseFrames (bs : List Nat) : List (Int × Option FrameEvent) :=
  parseFramesFuel bs.length bs

/-! ## Association lists with Go map semantics (lookup, overwrite on insert) -/

/-- Lookup in an association list (Go map read). -/
def lookupA {α β : Type} [DecidableEq α] (k : α) : List (α × β) → Option β
  | [] => none
  | p :: ps => if p.1 = k then some p.2 else lookupA k ps

/-- Insert into an association list, overwriting the key (Go map write). -/
def insertA {α β : Type} [DecidableEq α] (k : α) (v : β) (m : List (α × β)) : List (α × β) :=
  (k, v) :: m.filter (fun p => decide (p.1 ≠ k))

/-- The key set of an association list. -/
def keysA {α β : Type} (m : List (α × β)) : List α := m.map Prod.fst

/-! ## Chunk (spec §4.1; the chunk implementation is not in the corpus) -/

/-- An RGBA color value. -/
structure RGBA where
  r : Nat
  g : Nat
  b : Nat
  a : Nat
deriving DecidableEq, Repr

/-- An RGBA image: its pixel rectangle and the pixels written so far
(an overlay; unwritten pixels are transparent). -/
structure Image where
  rect : Rect
  pix : List (Point × RGBA)
deriving DecidableEq, Repr

/-- Error kinds of the canvas (spec §7). -/
inductive CanvasError where
  | closed
  | notFound
  | outOfBounds
  | invalidSnapshot
  | noDownloadInProgress
deriving DecidableEq, Repr

/-- A chunk: its pixel rectangle, pixel buffer, validity/download state and
the pixel replay queue (spec §3). -/
structure Chunk where
  rect : Rect
  pix : List (Point × RGBA)
  valid : Bool
  downloading : Bool
  replayQueue : List (Point × RGBA)
deriving DecidableEq, Repr

/-- A freshly created chunk: invalid, not downloading, empty buffer. -/
def newChunk (r : Rect) : Chunk := ⟨r, [], false, false, []⟩

/-- Write one pixel into a pixel overlay. -/
def setPix (pix : List (Point × RGBA)) (p : Point) (c : RGBA) : List (Point × RGBA) :=
  insertA p c pix

/-- Modelled from the spec: `chunk.setPixel` (chunk implementation missing
from the corpus).  Spec §4.1: fails with OutOfBounds if `pos ∉ rect`; if
`downloading`, additionally appends `(pos, color)` to `replayQueue`. -/
def Chunk.setPixel (ch : Chunk) (pos : Point) (c : RGBA) : Except CanvasError Chunk :=
  if !(pos.inRect ch.rect) then .error .outOfBounds
  else .ok { ch with
    pix := setPix ch.pix pos c
    replayQueue := if ch.downloading then ch.replayQueue ++ [(pos, c)] else ch.replayQueue }

/-- Modelled from the spec: `chunk.invalidateImage` (missing from the
corpus).  Spec §4.1: `valid := false`; the buffer is kept; any in-flight
`replayQueue` is discarded. -/
def Chunk.invalidateImage (ch : Chunk) : Chunk :=
  { ch with valid := false, replayQueue := [] }

/-- Modelled from the spec: `chunk.revalidate` (missing from the corpus).
Spec §4.1: `valid := true` without changing pixel data. -/
def Chunk.revalidate (ch : Chunk) : Chunk := { ch with valid := true }

/-- Modelled from the spec: `chunk.signalDownload` (missing from the
corpus).  Spec §4.1: returns true and sets `downloading := true` iff not
already downloading. -/
def Chunk.signalDownload (ch : Chunk) : Bool × Chunk :=
  if ch.downloading then (false, ch) else (true, { ch with downloading := true })

/-- Modelled from the spec: `chunk.getImageCopy` (missing from the corpus).
Spec §4.1: returns a snapshot and the validity flag; fails with Invalid
when `onlyIfValid ∧ ¬valid`. -/
def Chunk.getImageCopy (ch : Chunk) (onlyIfValid : Bool) : Except CanvasError (Image × Bool) :=
  if onlyIfValid && !ch.valid then .error .invalidSnapshot
  else .ok (⟨ch.rect, ch.pix⟩, ch.valid)

/-- Modelled from the spec: `chunk.setImage` (missing from the corpus).
Spec §4.1 together with the `canvas.setImage` doc comment ("Chunks that
have their download flag not set, will be ignored"): fails with
NoDownloadInProgress if `¬downloading`; otherwise copies `src ∩ rect` into
the buffer, replays `replayQueue` in order on top, clears the queue, sets
`valid := true` and `downloading := false`.  Returns the resulting image,
or `none` (the "revalidated only" marker) when the chunk was already valid
with matching data. -/
def Chunk.setImage (ch : Chunk) (img : Image) : Except CanvasError (Option Image × Chunk) :=
  if !ch.downloading then .error .noDownloadInProgress
  else
    let base := img.pix.filter (fun q => q.1.inRect ch.rect)
    let newPix := ch.replayQueue.foldl (fun px pc => setPix px pc.1 pc.2) base
    let marker : Option Image :=
      if ch.valid && decide (newPix = ch.pix) then none else some ⟨ch.rect, newPix⟩
    .ok (marker, { ch with pix := newPix, valid := true, downloading := false, replayQueue := [] })

/-! ## Canvas (canvas.go) -/

/-- The events the canvas forwards to the broadcaster goroutine
(`canvasEvent*` types). -/
inductive CanvasEvent where
  | setPixel (pos : Point) (col : RGBA)
  | setImage (img : Image)
  | invalidateRect (r : Rect)
  | invalidateAll
  | revalidate (r : Rect)
  | signalDownload (r : Rect)
  | setTime (t : Int)
  | listenerSubscribe (l : Nat) (useVirtualChunks : Bool)
  | listenerUnsubscribe (l : Nat)
  | listenerRects (l : Nat) (rects : List Rect)
deriving DecidableEq, Repr

/-- The canvas.  `events` is the sequence of events sent to `EventChan`
(consumed by the broadcaster goroutine), in order. -/
structure Canvas where
  closed : Bool
  chunkSize : PixelSize
  origin : Point
  rect : Rect
  chunks : List (ChunkCoord × Chunk)
  time : Int
  events : List CanvasEvent
deriving DecidableEq, Repr

/-- A fresh canvas as produced by `newCanvas`. -/
def newCanvas (chunkSize : PixelSize) (origin : Point) (canvasRect : Rect) : Canvas :=
  { closed := false, chunkSize := chunkSize, origin := origin, rect := canvasRect
    chunks := [], time := 0, events := [] }

/-- Enqueue one event on the canvas's event channel. -/
def Canvas.enqueue (can : Canvas) (e : CanvasEvent) : Canvas :=
  { can with events := can.events ++ [e] }

/-- `canvas.getChunk`: returns the chunk at `coord`; if absent and
`createIfNonexistent`, allocates a fresh chunk at the rectangle computed by
`chunkTileRect` (the source's formula, which uses `Origin.X` on both axes)
and inserts it; otherwise fails ("Chunk at ... does not exist" — the
NotFound error). -/
def Canvas.getChunkF (can : Canvas) (coord : ChunkCoord) (createIfNonexistent : Bool) :
    Except CanvasError Chunk × Canvas :=
  match lookupA coord can.chunks with
  | some ch => (.ok ch, can)
  | none =>
    if createIfNonexistent then
      let ch := newChunk (chunkTileRect can.chunkSize can.origin coord)
      (.ok ch, { can with chunks := insertA coord ch can.chunks })
    else (.error .notFound, can)

/-- The list of coordinates of a chunk rectangle, in the iteration order of
`canvas.getChunks` (outer loop over Y, inner over X). -/
def intRange (a b : Int) : List Int :=
  (List.range (b - a).toNat).map (fun i => a + (i : Int))

/-- Coordinates covered by a chunk rectangle. -/
def ChunkRect.coords (r : ChunkRect) : List ChunkCoord :=
  (intRange r.min.y r.max.y).flatMap fun iy =>
    (intRange r.min.x r.max.x).map fun ix => ⟨ix, iy⟩

/-- Loop body of `canvas.getChunks`: walks the coordinate list, creating or
skipping chunks; aborts with the lookup error when a chunk is missing and
`ignoreNonexistent` is false. -/
def getChunksGo (create ignore : Bool) :
    Canvas → List ChunkCoord → List ChunkCoord → Except CanvasError (List ChunkCoord) × Canvas
  | can, [], acc => (.ok acc.reverse, can)
  | can, c :: cs, acc =>
    let (res, can') := can.getChunkF c create
    match res with
    | .error e => if ignore then getChunksGo create ignore can' cs acc else (.error e, can')
    | .ok _ => getChunksGo create ignore can' cs (c :: acc)

/-- `canvas.getChunks`: the chunks (here: their coordinates) of a chunk
rectangle, canonicalized first. -/
def Canvas.getChunksF (can : Canvas) (r : ChunkRect) (create ignore : Bool) :
    Except CanvasError (List ChunkCoord) × Canvas :=
  getChunksGo create ignore can r.canon.coords []

/-- Apply a function to the chunk stored at `coord`, if any. -/
def Canvas.modifyChunk (can : Canvas) (coord : ChunkCoord) (f : Chunk → Chunk) : Canvas :=
  match lookupA coord can.chunks with
  | some ch => { can with chunks := insertA coord (f ch) can.chunks }
  | none => can

/-- `canvas.subscribeListener`: fails with Closed when the canvas is
closed; otherwise forwards a subscribe event to the broadcaster. -/
def Canvas.subscribeListenerOp (can : Canvas) (l : Nat) (useVirtualChunks : Bool) :
    Except CanvasError Unit × Canvas :=
  if can.closed then (.error .closed, can)
  else (.ok (), can.enqueue (.listenerSubscribe l useVirtualChunks))

/-- `canvas.unsubscribeListener`. -/
def Canvas.unsubscribeListenerOp (can : Canvas) (l : Nat) :
    Except CanvasError Unit × Canvas :=
  if can.closed then (.error .closed, can)
  else (.ok (), can.enqueue (.listenerUnsubscribe l))

/-- `canvas.registerRects`: fails with Closed when the canvas is closed;
otherwise forwards the rects event to the broadcaster ("even if there
isn't a chunk") and returns success — also when the listener is not
subscribed ("This function will silently fail if the listener isn't
subscribed already"). -/
def Canvas.registerRectsOp (can : Canvas) (l : Nat) (rects : List Rect) :
    Except CanvasError Unit × Canvas :=
  if can.closed then (.error .closed, can)
  else (.ok (), can.enqueue (.listenerRects l rects))

/-- `canvas.setPixel`: after the closed check, the event send is deferred
("Forward event to broadcaster goroutine, even if there isn't a chunk.
But send it after the chunk has been updated"), so the SetPixel event is
enqueued on every exit path — also when the chunk is missing or the write
fails. -/
def Canvas.setPixelOp (can : Canvas) (pos : Point) (col : RGBA) :
    Except CanvasError Unit × Canvas :=
  if can.closed then (.error .closed, can)
  else
    let coord := can.chunkSize.getChunkCoord pos can.origin
    let (res, can') : Except CanvasError Unit × Canvas :=
      match (can.getChunkF coord false).1 with
      | .error e => (.error e, can)
      | .ok ch =>
        match ch.setPixel pos col with
        | .error e => (.error e, can)
        | .ok ch' => (.ok (), { can with chunks := insertA coord ch' can.chunks })
    (res, can'.enqueue (.setPixel pos col))

/-- `canvas.setImage`: for each chunk fully inside the image, delegates to
`chunk.setImage` and enqueues per chunk either a SetImage event (new data)
or a Revalidate event (revalidated-only marker); chunk errors are skipped
(`continue`). -/
def Canvas.setImageOp (can : Canvas) (img : Image) (createIfNonexistent ignoreNonexistent : Bool) :
    Except CanvasError Unit × Canvas :=
  if can.closed then (.error .closed, can)
  else
    let chunkRect := can.chunkSize.getInnerChunkRect img.rect can.origin
    let (res, can') := can.getChunksF chunkRect createIfNonexistent ignoreNonexistent
    match res with
    | .error e => (.error e, can')
    | .ok coords =>
      (.ok (), coords.foldl (fun c coord =>
        match lookupA coord c.chunks with
        | none => c
        | some ch =>
          match ch.setImage img with
          | .error _ => c
          | .ok (marker, ch') =>
            let c' := { c with chunks := insertA coord ch' c.chunks }
            match marker with
            | some ri => c'.enqueue (.setImage ri)
            | none => c'.enqueue (.revalidate ch.rect)) can')

/-- `canvas.invalidateRect`: the event send is deferred after the closed
check, so the InvalidateRect event is enqueued on every exit path. -/
def Canvas.invalidateRectOp (can : Canvas) (r : Rect) : Except CanvasError Unit × Canvas :=
  if can.closed then (.error .closed, can)
  else
    let chunkRect := can.chunkSize.getOuterChunkRect r can.origin
    let (res, can') := can.getChunksF chunkRect false true
    let (out, can'') :=
      match res with
      | .error e => ((.error e : Except CanvasError Unit), can')
      | .ok coords =>
        (.ok (), coords.foldl (fun c coord => c.modifyChunk coord Chunk.invalidateImage) can')
    (out, can''.enqueue (.invalidateRect r))

/-- `canvas.revalidateRect`: the event send is deferred after the closed
check, so the Revalidate event is enqueued on every exit path. -/
def Canvas.revalidateRectOp (can : Canvas) (r : Rect) : Except CanvasError Unit × Canvas :=
  if can.closed then (.error .closed, can)
  else
    let chunkRect := can.chunkSize.getOuterChunkRect r can.origin
    let (res, can') := can.getChunksF chunkRect false true
    let (out, can'') :=
      match res with
      | .error e => ((.error e : Except CanvasError Unit), can')
      | .ok coords =>
        (.ok (), coords.foldl (fun c coord => c.modifyChunk coord Chunk.revalidate) can')
    (out, can''.enqueue (.revalidate r))

/-- `canvas.invalidateAll`: invalidates every chunk, then enqueues the
InvalidateAll event. -/
def Canvas.invalidateAllOp (can : Canvas) : Except CanvasError Unit × Canvas :=
  if can.closed then (.error .closed, can)
  else
    let can' := { can with
      chunks := can.chunks.map (fun (p : ChunkCoord × Chunk) => (p.1, p.2.invalidateImage)) }
    (.ok (), can'.enqueue .invalidateAll)

/-- Collect the chunks that transitioned to downloading
(`canvas.signalDownload` loop body). -/
def signalDownloadGo : Canvas → List ChunkCoord → List ChunkCoord → List ChunkCoord × Canvas
  | can, [], acc => (acc.reverse, can)
  | can, c :: cs, acc =>
    match lookupA c can.chunks with
    | none => signalDownloadGo can cs acc
    | some ch =>
      let (started, ch') := ch.signalDownload
      let can' := { can with chunks := insertA c ch' can.chunks }
      if started then signalDownloadGo can' cs (c :: acc)
      else signalDownloadGo can' cs acc

/-- `canvas.signalDownload`: creates the chunks of the outer chunk
rectangle, flags them as downloading, returns those that transitioned.
The event send is deferred after the closed check, so the SignalDownload
event is enqueued on every exit path. -/
def Canvas.signalDownloadOp (can : Canvas) (r : Rect) :
    Except CanvasError (List ChunkCoord) × Canvas :=
  if can.closed then (.error .closed, can)
  else
    let chunkRect := can.chunkSize.getOuterChunkRect r can.origin
    let (res, can') := can.getChunksF chunkRect true true
    let (out, can'') :=
      match res with
      | .error e => ((.error e : Except CanvasError (List ChunkCoord)), can')
      | .ok coords =>
        let (started, c'') := signalDownloadGo can' coords []
        ((.ok started : Except CanvasError (List ChunkCoord)), c'')
    (out, can''.enqueue (.signalDownload r))

/-- `canvas.setTime`. -/
def Canvas.setTimeOp (can : Canvas) (t : Int) : Except CanvasError Unit × Canvas :=
  if can.closed then (.error .closed, can)
  else (.ok (), { can with time := t }.enqueue (.setTime t))

/-- `canvas.getTime`. -/
def Canvas.getTimeOp (can : Canvas) : Except CanvasError Int :=
  if can.closed then .error .closed else .ok can.time

/-- Loop body of `canvas.getImageCopy`: stitches chunk snapshots; a chunk
snapshot error aborts only when `onlyIfValid`. -/
def getImageCopyGo (onlyIfValid : Bool) (r : Rect) (can : Canvas) :
    List ChunkCoord → List (Point × RGBA) → Except CanvasError (List (Point × RGBA))
  | [], acc => .ok acc
  | c :: cs, acc =>
    match lookupA c can.chunks with
    | none => getImageCopyGo onlyIfValid r can cs acc
    | some ch =>
      match ch.getImageCopy onlyIfValid with
      | .ok (img, _) =>
        getImageCopyGo onlyIfValid r can cs (acc ++ img.pix.filter (fun q => q.1.inRect r))
      | .error e => if onlyIfValid then .error e else getImageCopyGo onlyIfValid r can cs acc

/-- `canvas.getImageCopy`: no closed check appears in the source; the
operation stitches a snapshot of the chunks intersecting `rect`. -/
def Canvas.getImageCopyOp (can : Canvas) (r : Rect) (onlyIfValid ignoreNonexistent : Bool) :
    Except CanvasError Image :=
  let chunkRect := can.chunkSize.getOuterChunkRect r can.origin
  match (can.getChunksF chunkRect false ignoreNonexistent).1 with
  | .error e => .error e
  | .ok coords =>
    match getImageCopyGo onlyIfValid r can coords [] with
    | .error e => .error e
    | .ok pixels => .ok ⟨r, pixels⟩

/-- `canvas.isValid`: no closed check appears in the source; true iff every
intersecting chunk exists and is valid. -/
def Canvas.isValidOp (can : Canvas) (r : Rect) : Bool :=
  let chunkRect := can.chunkSize.getOuterChunkRect r can.origin
  match (can.getChunksF chunkRect false false).1 with
  | .error _ => false
  | .ok coords =>
    coords.all fun c =>
      match lookupA c can.chunks with
      | some ch => ch.valid
      | none => false

/-- `canvas.Close`: sets the closed flag (and closes the event channel). -/
def Canvas.closeOp (can : Canvas) : Canvas := { can with closed := true }

/-! ## Broadcast loop and virtual-chunk viewport manager -/

/-- Per-listener state kept by the broadcaster (`canvasListenerState`). -/
structure ListenerState where
  rects : List Rect
  virtualChunks : List (Rect × Nat)
  virtualChunkIDCounter : Nat
  useVirtualChunks : Bool
deriving DecidableEq, Repr

/-- The listener state created on subscribe:
`&canvasListenerState{UseVirtualChunks: ..., VirtualChunkIDCounter: 1}`. -/
def subscribeState (useVC : Bool) : ListenerState :=
  { rects := [], virtualChunks := [], virtualChunkIDCounter := 1, useVirtualChunks := useVC }

/-- The tile rectangles `getVirtualChunks` enumerates for a pixel
rectangle: the coordinates of the outer chunk rectangle (Y outer loop,
X inner), each mapped to its tile rectangle via the source's formula. -/
def tileList (cs : PixelSize) (origin : Point) (r : Rect) : List Rect :=
  ((cs.getOuterChunkRect r origin).coords).map (chunkTileRect cs origin)

/-- Loop body of `getVirtualChunks`: for each tile, reuse the id from the
listener's existing `VirtualChunks` map; otherwise, when `createNew`,
assign the counter value and increment the counter. -/
def gvcGo (old : List (Rect × Nat)) (createNew : Bool) :
    List Rect → List (Rect × Nat) → Nat → List (Rect × Nat) × Nat
  | [], vcs, ctr => (vcs, ctr)
  | t :: ts, vcs, ctr =>
    match lookupA t old with
    | some i => gvcGo old createNew ts (insertA t i vcs) ctr
    | none =>
      if createNew then gvcGo old createNew ts (insertA t ctr vcs) (ctr + 1)
      else gvcGo old createNew ts vcs ctr

/-- `getVirtualChunks` from `newCanvas`: returns the virtual chunks
intersecting `r` and the updated id counter (the only listener-state field
it mutates). -/
def getVirtualChunksF (cs : PixelSize) (origin : Point) (st : ListenerState) (r : Rect)
    (createNew : Bool) : List (Rect × Nat) × Nat :=
  gvcGo st.virtualChunks createNew (tileList cs origin r) [] st.virtualChunkIDCounter

/-- `neededChunks` of the ListenerRects handler: merge the per-rect
virtual-chunk maps, threading the id counter. -/
def buildNeeded (cs : PixelSize) (origin : Point) (old : List (Rect × Nat)) :
    List Rect → List (Rect × Nat) → Nat → List (Rect × Nat) × Nat
  | [], needed, ctr => (needed, ctr)
  | r :: rs, needed, ctr =>
    let (vcs, ctr') := gvcGo old true (tileList cs origin r) [] ctr
    buildNeeded cs origin old rs (vcs.foldl (fun m p => insertA p.1 p.2 m) needed) ctr'

/-- Effects the broadcaster produces while handling one event: listener
callbacks and asynchronous download hints on `rectQueryChan`. -/
inductive Callback where
  | chunksChange (l : Nat) (create remove : List (Rect × Nat))
  | setImage (l : Nat) (img : Image) (valid : Bool) (vcIDs : List Nat)
  | setTime (l : Nat) (t : Int)
  | downloadHint (r : Rect)
deriving DecidableEq, Repr

/-- The broadcaster's listener map (`listeners` local of the goroutine). -/
structure Broadcast where
  listeners : List (Nat × ListenerState)
deriving DecidableEq, Repr

/-- Remove a key from an association list (Go `delete`). -/
def eraseA {α β : Type} [DecidableEq α] (k : α) (m : List (α × β)) : List (α × β) :=
  m.filter (fun p => decide (p.1 ≠ k))

/-- The broadcaster's `canvasEventListenerSubscribe` case: create fresh
listener state (id counter 1); if the listener does not use virtual
chunks, deliver a SetImage for every existing chunk, then a SetTime. -/
def handleSubscribe (can : Canvas) (bs : Broadcast) (l : Nat) (useVC : Bool) :
    Broadcast × List Callback :=
  let bs' : Broadcast := ⟨insertA l (subscribeState useVC) bs.listeners⟩
  let imgCbs :=
    if !useVC then
      can.chunks.filterMap fun p =>
        match p.2.getImageCopy false with
        | .ok (img, valid) => some (Callback.setImage l img valid [])
        | .error _ => none
    else []
  let timeCb :=
    match can.getTimeOp with
    | .ok t => [Callback.setTime l t]
    | .error _ => []
  (bs', imgCbs ++ timeCb)

/-- The broadcaster's `canvasEventListenerUnsubscribe` case. -/
def handleUnsubscribe (bs : Broadcast) (l : Nat) : Broadcast × List Callback :=
  (⟨eraseA l bs.listeners⟩, [])

/-- The broadcaster's `canvasEventListenerRects` case.  When the listener
is not subscribed (`state, ok := listeners[event.Listener]; if ok`), the
event is discarded: no state change, no callbacks, no download hints.
Otherwise: store the rects, hint the downloader per rect, and — for
virtual-chunk listeners — rebuild `VirtualChunks` as `neededChunks`,
announce created/removed tiles, and send snapshots for created tiles whose
chunk exists. -/
def handleListenerRects (can : Canvas) (bs : Broadcast) (l : Nat) (rs : List Rect) :
    Broadcast × List Callback :=
  match lookupA l bs.listeners with
  | none => (bs, [])
  | some st =>
    let hints := rs.map Callback.downloadHint
    let st1 := { st with rects := rs }
    if !st.useVirtualChunks then
      (⟨insertA l st1 bs.listeners⟩, hints)
    else
      let (needed, ctr') :=
        buildNeeded can.chunkSize can.origin st.virtualChunks rs [] st.virtualChunkIDCounter
      let createChunks := needed.filter fun p => (lookupA p.1 st.virtualChunks).isNone
      let removeChunks := st.virtualChunks.filter fun p => (lookupA p.1 needed).isNone
      let st2 := { st1 with virtualChunks := needed, virtualChunkIDCounter := ctr' }
      let ccCb :=
        if createChunks.length > 0 || removeChunks.length > 0 then
          [Callback.chunksChange l createChunks removeChunks]
        else []
      let imgCbs := createChunks.filterMap fun p =>
        let coord := can.chunkSize.getChunkCoord p.1.min can.origin
        match lookupA coord can.chunks with
        | none => none
        | some ch =>
          match ch.getImageCopy false with
          | .ok (img, valid) => some (Callback.setImage l img valid [p.2])
          | .error _ => none
      (⟨insertA l st2 bs.listeners⟩, hints ++ ccCb ++ imgCbs)

/-! ## Disk replayer (the goroutine of newCanvasDiskReader)

The replayer task is modelled as a deterministic interpreter over the
sequence of time demands received on `TimeChan` (the channel closing is
modelled as the end of the demand list).  Recording files are modelled
already decoded: a header time plus a list of frames, a frame being its
time and an optional event (`none` for a frame with unknown DataType,
which the switch silently skips).  A read error / EOF is reaching the end
of the frame list while events are still demanded. -/

/-- One recording file, already decoded. -/
structure RecFile where
  headerTime : Int
  frames : List (Int × Option FrameEvent)
deriving DecidableEq, Repr

/-- Observable actions of the replayer on its canvas. -/
inductive ReplayAction where
  | apply (t : Int) (ev : FrameEvent)
  | invalidateAll
deriving DecidableEq, Repr

/-- The inner `for recTime.Before(curTime)` loop: read frames and apply
their events until `recTime ≥ curTime` or the file is exhausted (read
error / EOF, returning `none`). -/
def applyUntil : List (Int × Option FrameEvent) → Int → Int →
    List ReplayAction × Option (List (Int × Option FrameEvent) × Int)
  | [], recTime, curTime =>
    if recTime < curTime then ([], none) else ([], some ([], recTime))
  | f :: fs, recTime, curTime =>
    if recTime < curTime then
      let acts : List ReplayAction :=
        match f.2 with
        | some ev => [.apply f.1 ev]
        | none => []
      let (tr, res) := applyUntil fs f.1 curTime
      (acts ++ tr, res)
    else ([], some (f :: fs, recTime))

/-- How processing of the current file ended. -/
inductive FileOutcome where
  | closed
  | restart (demands : List Int) (curTime : Int)
  | nextFile (demands : List Int) (curTime : Int)
deriving DecidableEq, Repr

/-- The per-file demand loop (`for { tempTime, ok := <-cdr.TimeChan ... }`):
- demands exhausted (channel closed): leave, the deferred
  `invalidateAll` runs;
- a demand before `curTime`: leave with the restart flag, the deferred
  `invalidateAll` runs; `curTime` is NOT updated and the demand is
  discarded;
- otherwise `curTime := demand` and frames are applied until
  `recTime ≥ curTime`; frame exhaustion (read error) leaves to the next
  file, the deferred `invalidateAll` runs. -/
def runInFile : List (Int × Option FrameEvent) → Int → Int → List Int →
    List ReplayAction × FileOutcome
  | _, _, _, [] => ([.invalidateAll], .closed)
  | frames, recTime, curTime, d :: rest =>
    if d < curTime then ([.invalidateAll], .restart rest curTime)
    else
      match applyUntil frames recTime d with
      | (tr, none) => (tr ++ [.invalidateAll], .nextFile rest d)
      | (tr, some (fs', rec')) =>
        let (tr2, out) := runInFile fs' rec' d rest
        (tr ++ tr2, out)

/-- The outer `restartLoop` over the file list.  After the last file the
loop waits for a demand and sets `curTime` to it unconditionally, then
restarts from the first file.  Fuel decreases on every recursive call;
every call consumes at least one demand, so `demands.length + 1` fuel is
always sufficient. -/
def runFilesFuel (allFiles : List RecFile) :
    Nat → List RecFile → List Int → Int → List ReplayAction
  | 0, _, _, _ => []
  | _ + 1, [], [], _ => []
  | fuel + 1, [], d :: rest, _ => runFilesFuel allFiles fuel allFiles rest d
  | fuel + 1, f :: fs, demands, curTime =>
    match runInFile f.frames f.headerTime curTime demands with
    | (tr, .closed) => tr
    | (tr, .restart rest cur') => tr ++ runFilesFuel allFiles fuel allFiles rest cur'
    | (tr, .nextFile rest cur') => tr ++ runFilesFuel allFiles fuel fs rest cur'

/-- The whole replayer task: `curTime := <-cdr.TimeChan`, then the outer
loop over the files. -/
def replayRun (files : List RecFile) (demands : List Int) : List ReplayAction :=
  match demands with
  | [] => []
  | d :: rest => runFilesFuel files (rest.length + 1) files rest d

/-! ## Derived definitions used by the statements -/

/-- The state transition `handleListenerRects` applies to the state of a
subscribed listener (the listener-map entry is replaced by this value). -/
def applyRects (cs : PixelSize) (origin : Point) (st : ListenerState) (rs : List Rect) :
    ListenerState :=
  if !st.useVirtualChunks then { st with rects := rs }
  else
    let (needed, ctr') :=
      buildNeeded cs origin st.virtualChunks rs [] st.virtualChunkIDCounter
    { st with rects := rs, virtualChunks := needed, virtualChunkIDCounter := ctr' }

/-- A sequence of viewport updates applied to a listener's state. -/
def applyRectsSeq (cs : PixelSize) (origin : Point) (st : ListenerState)
    (us : List (List Rect)) : ListenerState :=
  us.foldl (applyRects cs origin) st

/-- Distinct ids map to distinct tiles. -/
def pairInj (m : List (Rect × Nat)) : Prop :=
  ∀ p ∈ m, ∀ q ∈ m, p.2 = q.2 → p.1 = q.1

/-- Well-formedness of a virtual-chunk map under construction, relative to
the listener's previous map `old` and the counter value `ctr0` at the start
of the update: keys are unique, ids are injective, and every id is below
the current counter and either copied from `old` or freshly assigned
(`≥ ctr0`). -/
def goodMap (old : List (Rect × Nat)) (ctr0 : Nat) (m : List (Rect × Nat)) (c : Nat) : Prop :=
  (keysA m).Nodup ∧ pairInj m ∧ ∀ p ∈ m, p.2 < c ∧ (lookupA p.1 old = some p.2 ∨ ctr0 ≤ p.2)

/-- Invariant of a listener's virtual-chunk state: unique keys, injective
ids, all ids below the counter. -/
def VCInv (st : ListenerState) : Prop :=
  (keysA st.virtualChunks).Nodup ∧ pairInj st.virtualChunks ∧
    ∀ p ∈ st.virtualChunks, p.2 < st.virtualChunkIDCounter

/-! # Theorems -/

/-- C1: the round-trip claim fails on the code.  The disk writer's
`handleInvalidateAll` emits the single byte `21` (no `Time:i64`), but the
reader reads `DataType:u8` followed by `Time:i64` before dispatching; on
the writer's output the time read fails and the parser yields no events at
all.  The same happens for a SetPixel frame: the writer emits 12 bytes,
the reader consumes 8 of the payload bytes as the frame time and then
fails reading the pixel payload. -/
theorem writer_reader_roundtrip_fails :
    writeInvalidateAll = [21] ∧
    parseFrames writeInvalidateAll = [] ∧
    writeSetPixel 7 8 10 20 30 = [10, 7, 0, 0, 0, 8, 0, 0, 0, 10, 20, 30] ∧
    parseFrames (writeSetPixel 7 8 10 20 30) = [] := by
  decide

/-- C2: the header written by the disk writer does not conform to the
layout the reader consumes.  `newCanvasDiskWriter` writes a 16-byte header
(MagicNumber, Version, ChunkWidth, ChunkHeight, PaletteSize) with no
`Time` field, while `parseHeader` reads 24 bytes (MagicNumber, Version,
Time, ChunkWidth, ChunkHeight, Reserved); parsing the writer's header
fails with a read error. -/
theorem writer_header_layout_mismatch :
    (writeHeader 256 256 0).length = 16 ∧
    parseHeader (writeHeader 256 256 0) = .error .readError := by
  decide

/-- C3: the chunk rectangle allocated by `canvas.getChunk` (and by the
virtual-chunk tile computation) uses `Origin.X` on the Y axis, so with
chunk size 16×16 and origin (1,2) the chunk at coordinate (0,0) gets
minimum corner (−1,−1) instead of the specified (−1,−2). -/
theorem chunk_rect_origin_mismatch :
    (((newCanvas ⟨16, 16⟩ ⟨1, 2⟩ ⟨⟨-100, -100⟩, ⟨100, 100⟩⟩).getChunkF ⟨0, 0⟩ true).1 =
      .ok (newChunk ⟨⟨-1, -1⟩, ⟨15, 15⟩⟩)) ∧
    chunkTileRect ⟨16, 16⟩ ⟨1, 2⟩ ⟨0, 0⟩ = ⟨⟨-1, -1⟩, ⟨15, 15⟩⟩ ∧
    specChunkRect ⟨16, 16⟩ ⟨1, 2⟩ ⟨0, 0⟩ = ⟨⟨-1, -2⟩, ⟨15, 14⟩⟩ ∧
    chunkTileRect ⟨16, 16⟩ ⟨1, 2⟩ ⟨0, 0⟩ ≠ specChunkRect ⟨16, 16⟩ ⟨1, 2⟩ ⟨0, 0⟩ := by
  decide

/-- C4 counterexample: on a fresh open canvas with no chunks, `setPixel`
fails with NotFound — the chunk mutation did not succeed — yet the
SetPixel event IS enqueued (the event send is deferred right after the
closed check, "even if there isn't a chunk"). -/
theorem setPixel_notfound_still_enqueues :
    (((newCanvas ⟨16, 16⟩ ⟨0, 0⟩ ⟨⟨-100, -100⟩, ⟨100, 100⟩⟩).setPixelOp ⟨0, 0⟩
        ⟨255, 0, 0, 255⟩).1 = .error .notFound) ∧
    (((newCanvas ⟨16, 16⟩ ⟨0, 0⟩ ⟨⟨-100, -100⟩, ⟨100, 100⟩⟩).setPixelOp ⟨0, 0⟩
        ⟨255, 0, 0, 255⟩).2.events = [.setPixel ⟨0, 0⟩ ⟨255, 0, 0, 255⟩]) := by
  decide

/-- C5 counterexample: after `close()`, `getImageCopy` does not fail with
Closed — the source has no closed check there — it succeeds and returns a
stitched (empty) image. -/
theorem getImageCopy_after_close_succeeds :
    (newCanvas ⟨16, 16⟩ ⟨0, 0⟩ ⟨⟨-100, -100⟩, ⟨100, 100⟩⟩).closeOp.getImageCopyOp
      ⟨⟨0, 0⟩, ⟨10, 10⟩⟩ false true = .ok ⟨⟨⟨0, 0⟩, ⟨10, 10⟩⟩, []⟩ := by
  decide

/-- C6 counterexample: a header with version 0 (≠ 1) parses successfully —
the reader only rejects `Version > 1` — and a frame with the unknown
DataType 99 does not stop the file: its time is consumed and parsing
continues with the following frame. -/
theorem reader_accepts_v0_and_skips_unknown :
    parseHeader (leBytes 4 1128616528 ++ leBytes 2 0 ++ leBytes 8 12345 ++
      leBytes 4 16 ++ leBytes 4 16 ++ leBytes 2 0) = .ok (⟨12345, 16, 16⟩, []) ∧
    parseFrames ([99] ++ leBytesI 8 5 ++ [21] ++ leBytesI 8 6) =
      [(5, none), (6, some .invalidateAll)] := by
  decide

/-- C7 counterexample: one file with header time 0 and three frames at
times 3, 7, 12.  Demands: 0 (initial), 10 (apply all three frames), then
5 (backward).  The backward demand triggers the deferred invalidateAll and
the restart, but `curTime` stays 10 and the demand is discarded: no event
is ever re-applied (each frame is applied exactly once in the whole
trace), contradicting "advances forward applying events until the
recording time reaches t". -/
theorem replayer_backward_seek_no_advance :
    replayRun [⟨0, [(3, some (.setPixel 1 1 10 20 30)), (7, some (.invalidateRect 0 0 5 5)),
        (12, some (.setPixel 2 2 7 7 7))]⟩] [0, 10, 5] =
      [.apply 3 (.setPixel 1 1 10 20 30), .apply 7 (.invalidateRect 0 0 5 5),
        .apply 12 (.setPixel 2 2 7 7 7), .invalidateAll, .invalidateAll] ∧
    (replayRun [⟨0, [(3, some (.setPixel 1 1 10 20 30)), (7, some (.invalidateRect 0 0 5 5)),
        (12, some (.setPixel 2 2 7 7 7))]⟩] [0, 10, 5]).count
      (.apply 3 (.setPixel 1 1 10 20 30)) = 1 := by
  decide

/-- C7 amended: when the replayer receives a demand `d` earlier than
`curTime`, the deferred `invalidateAll` fires and scanning restarts from
the first file — but `curTime` is left unchanged and the demand `d` is
discarded, so no events are applied toward `d`; the replayer simply waits
for the next demand. -/
theorem replayer_backward_restart_amended (all : List RecFile) (f : RecFile)
    (fs : List RecFile) (fuel : Nat) (d curTime : Int) (rest : List Int)
    (h : d < curTime) :
    runFilesFuel all (fuel + 1) (f :: fs) (d :: rest) curTime =
      .invalidateAll :: runFilesFuel all fuel all rest curTime := by
  simp [runFilesFuel, runInFile, h]

/-- Witness for the amended C7 theorem at a concrete input. -/
theorem replayer_backward_restart_amended_witness :
    runFilesFuel [⟨0, [(3, some .invalidateAll)]⟩] 1 [⟨0, [(3, some .invalidateAll)]⟩]
        [3] 10 =
      .invalidateAll :: runFilesFuel [⟨0, [(3, some .invalidateAll)]⟩] 0
        [⟨0, [(3, some .invalidateAll)]⟩] [] 10 :=
  replayer_backward_restart_amended [⟨0, [(3, some .invalidateAll)]⟩]
    ⟨0, [(3, some .invalidateAll)]⟩ [] 0 3 10 [] (by decide)

/-- C10: `registerRects` on an open canvas succeeds regardless of whether
the listener is subscribed (only the closed flag is checked) and merely
enqueues the rects event; when the broadcaster then handles that event for
a listener that is not in its map, it discards it: the listener map is
unchanged and no callback and no download hint is produced. -/
theorem registerRects_unsubscribed_silent (can : Canvas) (bs : Broadcast) (l : Nat)
    (rs : List Rect) (hopen : can.closed = false) (habs : lookupA l bs.listeners = none) :
    (can.registerRectsOp l rs).1 = .ok () ∧
    (can.registerRectsOp l rs).2 = can.enqueue (.listenerRects l rs) ∧
    handleListenerRects can bs l rs = (bs, []) := by
  refine ⟨?_, ?_, ?_⟩ <;>
    simp [Canvas.registerRectsOp, handleListenerRects, hopen, habs]

/-- Witness for C10 at a concrete input. -/
theorem registerRects_unsubscribed_silent_witness :
    ((newCanvas ⟨16, 16⟩ ⟨0, 0⟩ ⟨⟨0, 0⟩, ⟨8, 8⟩⟩).registerRectsOp 9
      [⟨⟨0, 0⟩, ⟨1, 1⟩⟩]).1 = .ok () ∧
    ((newCanvas ⟨16, 16⟩ ⟨0, 0⟩ ⟨⟨0, 0⟩, ⟨8, 8⟩⟩).registerRectsOp 9
      [⟨⟨0, 0⟩, ⟨1, 1⟩⟩]).2 =
      (newCanvas ⟨16, 16⟩ ⟨0, 0⟩ ⟨⟨0, 0⟩, ⟨8, 8⟩⟩).enqueue
        (.listenerRects 9 [⟨⟨0, 0⟩, ⟨1, 1⟩⟩]) ∧
    handleListenerRects (newCanvas ⟨16, 16⟩ ⟨0, 0⟩ ⟨⟨0, 0⟩, ⟨8, 8⟩⟩) ⟨[]⟩ 9
      [⟨⟨0, 0⟩, ⟨1, 1⟩⟩] = (⟨[]⟩, []) :=
  registerRects_unsubscribed_silent (newCanvas ⟨16, 16⟩ ⟨0, 0⟩ ⟨⟨0, 0⟩, ⟨8, 8⟩⟩)
    ⟨[]⟩ 9 [⟨⟨0, 0⟩, ⟨1, 1⟩⟩] (by decide) (by decide)

/-- `getChunk` never touches the event queue. -/
theorem events_getChunkF (can : Canvas) (c : ChunkCoord) (b : Bool) :
    ((can.getChunkF c b).2).events = can.events := by
  unfold Canvas.getChunkF
  cases lookupA c can.chunks with
  | some ch => rfl
  | none => cases b <;> rfl

/-- `getChunks` never touches the event queue. -/
theorem events_getChunksGo (create ignore : Bool) (cs : List ChunkCoord) (can : Canvas)
    (acc : List ChunkCoord) :
    ((getChunksGo create ignore can cs acc).2).events = can.events := by
  induction cs generalizing can acc with
  | nil => rfl
  | cons c cs ih =>
    unfold getChunksGo
    rcases h : can.getChunkF c create with ⟨res, can'⟩
    have hev : can'.events = can.events := by
      have := events_getChunkF can c create
      rw [h] at this
      exact this
    cases res with
    | error e =>
      cases ignore with
      | true =>
        show (getChunksGo create true can' cs acc).2.events = can.events
        rw [ih can' acc]; exact hev
      | false => exact hev
    | ok ch =>
      show (getChunksGo create ignore can' cs (c :: acc)).2.events = can.events
      rw [ih can' (c :: acc)]; exact hev

/-- `getChunks` (wrapper) never touches the event queue. -/
theorem events_getChunksF (can : Canvas) (r : ChunkRect) (create ignore : Bool) :
    ((can.getChunksF r create ignore).2).events = can.events :=
  events_getChunksGo create ignore r.canon.coords can []

/-- Chunk modification never touches the event queue. -/
theorem events_modifyChunk (can : Canvas) (c : ChunkCoord) (f : Chunk → Chunk) :
    (can.modifyChunk c f).events = can.events := by
  unfold Canvas.modifyChunk
  cases lookupA c can.chunks <;> rfl

/-- Folding chunk modifications never touches the event queue. -/
theorem events_foldl_modify (f : Chunk → Chunk) (coords : List ChunkCoord) (can : Canvas) :
    (coords.foldl (fun c coord => c.modifyChunk coord f) can).events = can.events := by
  induction coords generalizing can with
  | nil => rfl
  | cons c cs ih => rw [List.foldl_cons, ih, events_modifyChunk]

/-- The signalDownload chunk loop never touches the event queue. -/
theorem events_signalDownloadGo (cs : List ChunkCoord) (can : Canvas)
    (acc : List ChunkCoord) :
    ((signalDownloadGo can cs acc).2).events = can.events := by
  induction cs generalizing can acc with
  | nil => rfl
  | cons c cs ih =>
    unfold signalDownloadGo
    cases lookupA c can.chunks with
    | none => exact ih can acc
    | some ch =>
      show ((match ch.signalDownload with
        | (started, ch') =>
          let can' : Canvas := { can with chunks := insertA c ch' can.chunks }
          if started then signalDownloadGo can' cs (c :: acc)
          else signalDownloadGo can' cs acc).2).events = can.events
      rcases ch.signalDownload with ⟨started, ch'⟩
      cases started with
      | true => exact ih _ (c :: acc)
      | false => exact ih _ acc

/-- C4 amended: on an open canvas, each deferred mutator (`setPixel`,
`invalidateRect`, `invalidateAll`, `revalidateRect`, `signalDownload`)
enqueues its broadcast event unconditionally — the defer fires on every
exit path after the closed check, regardless of whether the chunk mutation
succeeded. -/
theorem deferred_events_always_enqueued (can : Canvas) (h : can.closed = false)
    (pos : Point) (col : RGBA) (r : Rect) :
    ((can.setPixelOp pos col).2).events = can.events ++ [.setPixel pos col] ∧
    ((can.invalidateRectOp r).2).events = can.events ++ [.invalidateRect r] ∧
    ((can.invalidateAllOp).2).events = can.events ++ [.invalidateAll] ∧
    ((can.revalidateRectOp r).2).events = can.events ++ [.revalidate r] ∧
    ((can.signalDownloadOp r).2).events = can.events ++ [.signalDownload r] := by
  refine ⟨?_, ?_, ?_, ?_, ?_⟩
  · unfold Canvas.setPixelOp
    rw [h]
    simp only [Bool.false_eq_true, if_false]
    split <;> try simp [Canvas.enqueue]
    split <;> simp [Canvas.enqueue]
  · unfold Canvas.invalidateRectOp
    rw [h]
    simp only [Bool.false_eq_true, if_false]
    split <;> simp [Canvas.enqueue, events_getChunksF, events_foldl_modify]
  · unfold Canvas.invalidateAllOp
    rw [h]
    simp [Canvas.enqueue]
  · unfold Canvas.revalidateRectOp
    rw [h]
    simp only [Bool.false_eq_true, if_false]
    split <;> simp [Canvas.enqueue, events_getChunksF, events_foldl_modify]
  · unfold Canvas.signalDownloadOp
    rw [h]
    simp only [Bool.false_eq_true, if_false]
    split <;> simp [Canvas.enqueue, events_getChunksF, events_signalDownloadGo]

/-- Witness for the amended C4 theorem at a concrete input. -/
theorem deferred_events_always_enqueued_witness :
    (((newCanvas ⟨16, 16⟩ ⟨0, 0⟩ ⟨⟨0, 0⟩, ⟨64, 64⟩⟩).setPixelOp ⟨1, 1⟩
        ⟨9, 9, 9, 255⟩).2).events =
      (newCanvas ⟨16, 16⟩ ⟨0, 0⟩ ⟨⟨0, 0⟩, ⟨64, 64⟩⟩).events ++
        [.setPixel ⟨1, 1⟩ ⟨9, 9, 9, 255⟩] ∧
    (((newCanvas ⟨16, 16⟩ ⟨0, 0⟩ ⟨⟨0, 0⟩, ⟨64, 64⟩⟩).invalidateRectOp
        ⟨⟨0, 0⟩, ⟨4, 4⟩⟩).2).events =
      (newCanvas ⟨16, 16⟩ ⟨0, 0⟩ ⟨⟨0, 0⟩, ⟨64, 64⟩⟩).events ++
        [.invalidateRect ⟨⟨0, 0⟩, ⟨4, 4⟩⟩] ∧
    (((newCanvas ⟨16, 16⟩ ⟨0, 0⟩ ⟨⟨0, 0⟩, ⟨64, 64⟩⟩).invalidateAllOp).2).events =
      (newCanvas ⟨16, 16⟩ ⟨0, 0⟩ ⟨⟨0, 0⟩, ⟨64, 64⟩⟩).events ++ [.invalidateAll] ∧
    (((newCanvas ⟨16, 16⟩ ⟨0, 0⟩ ⟨⟨0, 0⟩, ⟨64, 64⟩⟩).revalidateRectOp
        ⟨⟨0, 0⟩, ⟨4, 4⟩⟩).2).events =
      (newCanvas ⟨16, 16⟩ ⟨0, 0⟩ ⟨⟨0, 0⟩, ⟨64, 64⟩⟩).events ++
        [.revalidate ⟨⟨0, 0⟩, ⟨4, 4⟩⟩] ∧
    (((newCanvas ⟨16, 16⟩ ⟨0, 0⟩ ⟨⟨0, 0⟩, ⟨64, 64⟩⟩).signalDownloadOp
        ⟨⟨0, 0⟩, ⟨4, 4⟩⟩).2).events =
      (newCanvas ⟨16, 16⟩ ⟨0, 0⟩ ⟨⟨0, 0⟩, ⟨64, 64⟩⟩).events ++
        [.signalDownload ⟨⟨0, 0⟩, ⟨4, 4⟩⟩] :=
  deferred_events_always_enqueued (newCanvas ⟨16, 16⟩ ⟨0, 0⟩ ⟨⟨0, 0⟩, ⟨64, 64⟩⟩)
    (by decide) ⟨1, 1⟩ ⟨9, 9, 9, 255⟩ ⟨⟨0, 0⟩, ⟨4, 4⟩⟩

/-- With `createIfNonexistent = false`, the chunk walk of `getChunks` only
reads the chunk map, so its result is insensitive to the closed flag. -/
theorem getChunksGo_fst_closeOp (ig : Bool) (c : Canvas) (cs : List ChunkCoord)
    (acc : List ChunkCoord) :
    (getChunksGo false ig c.closeOp cs acc).1 = (getChunksGo false ig c cs acc).1 := by
  induction cs generalizing acc with
  | nil => rfl
  | cons x xs ih =>
    unfold getChunksGo Canvas.getChunkF
    rw [show (Canvas.closeOp c).chunks = c.chunks from rfl]
    cases hl : lookupA x c.chunks with
    | some ch => exact ih (x :: acc)
    | none =>
      cases ig with
      | true => exact ih acc
      | false => rfl

/-- The snapshot-stitching loop only reads the chunk map, so it is
insensitive to the closed flag. -/
theorem getImageCopyGo_closeOp (oIV : Bool) (r : Rect) (c : Canvas)
    (cs : List ChunkCoord) (acc : List (Point × RGBA)) :
    getImageCopyGo oIV r c.closeOp cs acc = getImageCopyGo oIV r c cs acc := by
  induction cs generalizing acc with
  | nil => rfl
  | cons x xs ih =>
    unfold getImageCopyGo
    rw [show (Canvas.closeOp c).chunks = c.chunks from rfl]
    split
    · exact ih acc
    · split
      · exact ih _
      · split
        · rfl
        · exact ih acc

/-- `getImageCopy` behaves identically on a closed and on an open canvas:
the source has no closed check in it. -/
theorem getImageCopyOp_closeOp (c : Canvas) (r : Rect) (a b : Bool) :
    c.closeOp.getImageCopyOp r a b = c.getImageCopyOp r a b := by
  unfold Canvas.getImageCopyOp Canvas.getChunksF
  rw [show (Canvas.closeOp c).chunkSize = c.chunkSize from rfl,
      show (Canvas.closeOp c).origin = c.origin from rfl]
  simp only [getChunksGo_fst_closeOp, getImageCopyGo_closeOp]

/-- `isValid` behaves identically on a closed and on an open canvas: the
source has no closed check in it. -/
theorem isValidOp_closeOp (c : Canvas) (r : Rect) :
    c.closeOp.isValidOp r = c.isValidOp r := by
  unfold Canvas.isValidOp Canvas.getChunksF
  rw [show (Canvas.closeOp c).chunkSize = c.chunkSize from rfl,
      show (Canvas.closeOp c).origin = c.origin from rfl,
      show (Canvas.closeOp c).chunks = c.chunks from rfl]
  simp only [getChunksGo_fst_closeOp]

/-- C5 amended: after `close()` the mutators and `getTime` fail with
Closed — but `getImageCopy` and `isValid` have no closed check: they
behave exactly as on an open canvas (and `isValid` returns a plain
boolean, so it cannot fail at all). -/
theorem close_terminal_amended (can : Canvas) (h : can.closed = true)
    (l : Nat) (uvc : Bool) (rects : List Rect) (pos : Point) (col : RGBA) (img : Image)
    (b1 b2 : Bool) (r : Rect) (t : Int) :
    (can.subscribeListenerOp l uvc).1 = .error .closed ∧
    (can.unsubscribeListenerOp l).1 = .error .closed ∧
    (can.registerRectsOp l rects).1 = .error .closed ∧
    (can.setPixelOp pos col).1 = .error .closed ∧
    (can.setImageOp img b1 b2).1 = .error .closed ∧
    (can.invalidateRectOp r).1 = .error .closed ∧
    (can.invalidateAllOp).1 = .error .closed ∧
    (can.revalidateRectOp r).1 = .error .closed ∧
    (can.signalDownloadOp r).1 = .error .closed ∧
    (can.setTimeOp t).1 = .error .closed ∧
    can.getTimeOp = .error .closed ∧
    (∀ c : Canvas, c.closeOp.getImageCopyOp r b1 b2 = c.getImageCopyOp r b1 b2) ∧
    (∀ c : Canvas, c.closeOp.isValidOp r = c.isValidOp r) := by
  refine ⟨?_, ?_, ?_, ?_, ?_, ?_, ?_, ?_, ?_, ?_, ?_,
    fun c => getImageCopyOp_closeOp c r b1 b2, fun c => isValidOp_closeOp c r⟩ <;>
    simp [Canvas.subscribeListenerOp, Canvas.unsubscribeListenerOp, Canvas.registerRectsOp,
      Canvas.setPixelOp, Canvas.setImageOp, Canvas.invalidateRectOp, Canvas.invalidateAllOp,
      Canvas.revalidateRectOp, Canvas.signalDownloadOp, Canvas.setTimeOp, Canvas.getTimeOp, h]

/-- Witness for the amended C5 theorem at a concrete closed canvas. -/
theorem close_terminal_amended_witness :
    (((newCanvas ⟨16, 16⟩ ⟨0, 0⟩ ⟨⟨0, 0⟩, ⟨64, 64⟩⟩).closeOp.subscribeListenerOp 1
        false).1 = .error .closed) ∧
    (((newCanvas ⟨16, 16⟩ ⟨0, 0⟩ ⟨⟨0, 0⟩, ⟨64, 64⟩⟩).closeOp.unsubscribeListenerOp 1).1 =
      .error .closed) ∧
    (((newCanvas ⟨16, 16⟩ ⟨0, 0⟩ ⟨⟨0, 0⟩, ⟨64, 64⟩⟩).closeOp.registerRectsOp 1 []).1 =
      .error .closed) ∧
    (((newCanvas ⟨16, 16⟩ ⟨0, 0⟩ ⟨⟨0, 0⟩, ⟨64, 64⟩⟩).closeOp.setPixelOp ⟨1, 1⟩
        ⟨1, 2, 3, 4⟩).1 = .error .closed) ∧
    (((newCanvas ⟨16, 16⟩ ⟨0, 0⟩ ⟨⟨0, 0⟩, ⟨64, 64⟩⟩).closeOp.setImageOp
        ⟨⟨⟨0, 0⟩, ⟨1, 1⟩⟩, []⟩ false true).1 = .error .closed) ∧
    (((newCanvas ⟨16, 16⟩ ⟨0, 0⟩ ⟨⟨0, 0⟩, ⟨64, 64⟩⟩).closeOp.invalidateRectOp
        ⟨⟨0, 0⟩, ⟨1, 1⟩⟩).1 = .error .closed) ∧
    (((newCanvas ⟨16, 16⟩ ⟨0, 0⟩ ⟨⟨0, 0⟩, ⟨64, 64⟩⟩).closeOp.invalidateAllOp).1 =
      .error .closed) ∧
    (((newCanvas ⟨16, 16⟩ ⟨0, 0⟩ ⟨⟨0, 0⟩, ⟨64, 64⟩⟩).closeOp.revalidateRectOp
        ⟨⟨0, 0⟩, ⟨1, 1⟩⟩).1 = .error .closed) ∧
    (((newCanvas ⟨16, 16⟩ ⟨0, 0⟩ ⟨⟨0, 0⟩, ⟨64, 64⟩⟩).closeOp.signalDownloadOp
        ⟨⟨0, 0⟩, ⟨1, 1⟩⟩).1 = .error .closed) ∧
    (((newCanvas ⟨16, 16⟩ ⟨0, 0⟩ ⟨⟨0, 0⟩, ⟨64, 64⟩⟩).closeOp.setTimeOp 5).1 =
      .error .closed) ∧
    ((newCanvas ⟨16, 16⟩ ⟨0, 0⟩ ⟨⟨0, 0⟩, ⟨64, 64⟩⟩).closeOp.getTimeOp =
      .error .closed) ∧
    (∀ c : Canvas, c.closeOp.getImageCopyOp ⟨⟨0, 0⟩, ⟨1, 1⟩⟩ false true =
      c.getImageCopyOp ⟨⟨0, 0⟩, ⟨1, 1⟩⟩ false true) ∧
    (∀ c : Canvas, c.closeOp.isValidOp ⟨⟨0, 0⟩, ⟨1, 1⟩⟩ = c.isValidOp ⟨⟨0, 0⟩, ⟨1, 1⟩⟩) :=
  close_terminal_amended (newCanvas ⟨16, 16⟩ ⟨0, 0⟩ ⟨⟨0, 0⟩, ⟨64, 64⟩⟩).closeOp
    (by decide) 1 false [] ⟨1, 1⟩ ⟨1, 2, 3, 4⟩ ⟨⟨⟨0, 0⟩, ⟨1, 1⟩⟩, []⟩ false true
    ⟨⟨0, 0⟩, ⟨1, 1⟩⟩ 5

/-- C6 amended: the reader rejects a header whose magic number differs
from "PREC" (wrongFormat) and one whose version is greater than 1
(versionNewer), but accepts any version ≤ 1 (so version 0 does not fail);
and a frame with an unknown DataType does not stop the file: the reader
consumes the DataType byte and the 8 time bytes, matches no switch case,
and continues parsing with the next frame. -/
theorem reader_rejection_and_skip_amended
    (bs : List Nat) (hlen : 24 ≤ bs.length)
    (d : Nat) (hd : d < 256) (hdt : d ∉ ([10, 20, 21, 22, 30] : List Nat))
    (tb rest : List Nat) (htb : tb.length = 8) (fuel : Nat) :
    (leVal (bs.take 4) ≠ 1128616528 → parseHeader bs = .error .wrongFormat) ∧
    (leVal (bs.take 4) = 1128616528 → 1 < leVal ((bs.drop 4).take 2) →
      parseHeader bs = .error .versionNewer) ∧
    (leVal (bs.take 4) = 1128616528 → leVal ((bs.drop 4).take 2) ≤ 1 →
      parseHeader bs = .ok (⟨toSigned 8 (leVal ((bs.drop 6).take 8)),
        leVal ((bs.drop 14).take 4), leVal ((bs.drop 18).take 4)⟩, bs.drop 24)) ∧
    parseFrame (d :: (tb ++ rest)) = some ((toSigned 8 (leVal tb), none), rest) ∧
    parseFramesFuel (fuel + 1) (d :: (tb ++ rest)) =
      (toSigned 8 (leVal tb), none) :: parseFramesFuel fuel rest := by
  have h24 : readBytes 24 bs = some (bs.take 24, bs.drop 24) := by
    unfold readBytes
    rw [if_neg (by omega)]
  have hf4 : (bs.take 24).take 4 = bs.take 4 := by simp [List.take_take]
  have hf2 : ((bs.take 24).drop 4).take 2 = (bs.drop 4).take 2 := by
    rw [List.drop_take]; simp [List.take_take]
  have hf8 : ((bs.take 24).drop 6).take 8 = (bs.drop 6).take 8 := by
    rw [List.drop_take]; simp [List.take_take]
  have hf14 : ((bs.take 24).drop 14).take 4 = (bs.drop 14).take 4 := by
    rw [List.drop_take]; simp [List.take_take]
  have hf18 : ((bs.take 24).drop 18).take 4 = (bs.drop 18).take 4 := by
    rw [List.drop_take]; simp [List.take_take]
  have hpf : parseFrame (d :: (tb ++ rest)) = some ((toSigned 8 (leVal tb), none), rest) := by
    unfold parseFrame
    have h1 : readBytes 1 (d :: (tb ++ rest)) = some ([d], tb ++ rest) := by
      unfold readBytes
      rw [if_neg (by simp)]
      rfl
    have h8 : readBytes 8 (tb ++ rest) = some (tb, rest) := by
      unfold readBytes
      rw [if_neg (by simp [htb]), List.take_left' htb, List.drop_left' htb]
    have hld : leVal [d] = d := by simp [leVal, Nat.mod_eq_of_lt hd]
    simp only [h1, h8, hld]
    simp only [List.mem_cons, List.mem_singleton] at hdt
    push_neg at hdt
    obtain ⟨n10, n20, n21, n22, n30⟩ := hdt
    rw [if_neg n10, if_neg n20, if_neg n21, if_neg n22, if_neg n30.1]
  refine ⟨?_, ?_, ?_, hpf, ?_⟩
  · intro hm
    unfold parseHeader
    rw [h24]
    simp only [hf4, hf2]
    rw [if_pos hm]
  · intro hm hv
    unfold parseHeader
    rw [h24]
    simp only [hf4, hf2]
    rw [if_neg (by simp [hm]), if_pos hv]
  · intro hm hv
    unfold parseHeader
    rw [h24]
    simp only [hf4, hf2, hf8, hf14, hf18]
    rw [if_neg (by simp [hm]), if_neg (by omega)]
  · show (match parseFrame (d :: (tb ++ rest)) with
      | none => []
      | some (fr, rest) => fr :: parseFramesFuel fuel rest) =
      (toSigned 8 (leVal tb), none) :: parseFramesFuel fuel rest
    rw [hpf]

/-- Witness for the amended C6 theorem at a concrete input. -/
theorem reader_rejection_and_skip_amended_witness :
    (leVal ((leBytes 4 7 ++ leBytes 20 0).take 4) ≠ 1128616528 →
      parseHeader (leBytes 4 7 ++ leBytes 20 0) = .error .wrongFormat) ∧
    (leVal ((leBytes 4 7 ++ leBytes 20 0).take 4) = 1128616528 →
      1 < leVal (((leBytes 4 7 ++ leBytes 20 0).drop 4).take 2) →
      parseHeader (leBytes 4 7 ++ leBytes 20 0) = .error .versionNewer) ∧
    (leVal ((leBytes 4 7 ++ leBytes 20 0).take 4) = 1128616528 →
      leVal (((leBytes 4 7 ++ leBytes 20 0).drop 4).take 2) ≤ 1 →
      parseHeader (leBytes 4 7 ++ leBytes 20 0) =
        .ok (⟨toSigned 8 (leVal (((leBytes 4 7 ++ leBytes 20 0).drop 6).take 8)),
          leVal (((leBytes 4 7 ++ leBytes 20 0).drop 14).take 4),
          leVal (((leBytes 4 7 ++ leBytes 20 0).drop 18).take 4)⟩,
          (leBytes 4 7 ++ leBytes 20 0).drop 24)) ∧
    parseFrame (99 :: (leBytesI 8 5 ++ [21])) =
      some ((toSigned 8 (leVal (leBytesI 8 5)), none), [21]) ∧
    parseFramesFuel (0 + 1) (99 :: (leBytesI 8 5 ++ [21])) =
      (toSigned 8 (leVal (leBytesI 8 5)), none) :: parseFramesFuel 0 [21] :=
  reader_rejection_and_skip_amended (leBytes 4 7 ++ leBytes 20 0) (by decide)
    99 (by decide) (by decide) (leBytesI 8 5) [21] (by decide) 0

/-! ### Association list lemmas (Go map semantics) -/

theorem lookupA_cons {α β : Type} [DecidableEq α] (t : α) (p : α × β) (ps : List (α × β)) :
    lookupA t (p :: ps) = if p.1 = t then some p.2 else lookupA t ps := rfl

theorem lookupA_insertA_self {α β : Type} [DecidableEq α] (k : α) (v : β) (m : List (α × β)) :
    lookupA k (insertA k v m) = some v := by
  simp [insertA, lookupA]

theorem lookupA_filter_ne {α β : Type} [DecidableEq α] (t k : α) (h : t ≠ k)
    (m : List (α × β)) :
    lookupA t (m.filter (fun p => decide (p.1 ≠ k))) = lookupA t m := by
  induction m with
  | nil => rfl
  | cons p ps ih =>
    by_cases hp : p.1 = k
    · have hpt : p.1 ≠ t := by rw [hp]; exact fun hh => h hh.symm
      rw [show (p :: ps).filter (fun p => decide (p.1 ≠ k)) =
        ps.filter (fun p => decide (p.1 ≠ k)) from by simp [List.filter, hp]]
      rw [ih, lookupA_cons, if_neg hpt]
    · rw [show (p :: ps).filter (fun p => decide (p.1 ≠ k)) =
        p :: ps.filter (fun p => decide (p.1 ≠ k)) from by simp [List.filter, hp]]
      rw [lookupA_cons, lookupA_cons, ih]

theorem lookupA_insertA_ne {α β : Type} [DecidableEq α] (t k : α) (h : t ≠ k) (v : β)
    (m : List (α × β)) :
    lookupA t (insertA k v m) = lookupA t m := by
  rw [show insertA k v m = (k, v) :: m.filter (fun p => decide (p.1 ≠ k)) from rfl,
    lookupA_cons, if_neg (fun hh => h hh.symm), lookupA_filter_ne t k h m]

theorem mem_of_lookupA {α β : Type} [DecidableEq α] {k : α} {v : β} {m : List (α × β)}
    (h : lookupA k m = some v) : (k, v) ∈ m := by
  induction m with
  | nil => exact absurd h (by simp [lookupA])
  | cons p ps ih =>
    rw [lookupA_cons] at h
    by_cases hp : p.1 = k
    · rw [if_pos hp] at h
      have h2 : p.2 = v := by injection h
      have : (k, v) = p := by
        calc (k, v) = (p.1, p.2) := by rw [hp, h2]
          _ = p := rfl
      rw [this]
      exact List.mem_cons_self p ps
    · rw [if_neg hp] at h
      exact List.mem_cons_of_mem p (ih h)

theorem mem_insertA {α β : Type} [DecidableEq α] {p : α × β} {k : α} {v : β}
    {m : List (α × β)} :
    p ∈ insertA k v m ↔ p = (k, v) ∨ (p ∈ m ∧ p.1 ≠ k) := by
  simp only [insertA, List.mem_cons, List.mem_filter, decide_eq_true_eq]

theorem mem_keysA {α β : Type} (t : α) (m : List (α × β)) :
    t ∈ keysA m ↔ ∃ v, (t, v) ∈ m := by
  constructor
  · intro h
    obtain ⟨p, hp, hpt⟩ := List.mem_map.mp h
    exact ⟨p.2, by rwa [show (t, p.2) = p from by rw [← hpt]]⟩
  · rintro ⟨v, hv⟩
    exact List.mem_map.mpr ⟨(t, v), hv, rfl⟩

theorem lookupA_eq_none_iff {α β : Type} [DecidableEq α] (k : α) (m : List (α × β)) :
    lookupA k m = none ↔ k ∉ keysA m := by
  induction m with
  | nil => simp [lookupA, keysA]
  | cons p ps ih =>
    rw [lookupA_cons]
    by_cases hp : p.1 = k
    · rw [if_pos hp]
      simp [keysA, hp]
    · rw [if_neg hp, ih]
      simp only [keysA, List.map_cons, List.mem_cons]
      constructor
      · intro h hh
        rcases hh with hh | hh
        · exact hp hh.symm
        · exact h hh
      · intro h hh
        exact h (Or.inr hh)

theorem lookupA_isSome_of_mem_keysA {α β : Type} [DecidableEq α] {k : α}
    {m : List (α × β)} (h : k ∈ keysA m) : ∃ v, lookupA k m = some v := by
  cases hl : lookupA k m with
  | some v => exact ⟨v, rfl⟩
  | none => exact absurd h ((lookupA_eq_none_iff k m).mp hl)

theorem keysA_insertA_mem {α β : Type} [DecidableEq α] (t k : α) (v : β)
    (m : List (α × β)) :
    t ∈ keysA (insertA k v m) ↔ t = k ∨ t ∈ keysA m := by
  constructor
  · intro h
    obtain ⟨w, hw⟩ := (mem_keysA t _).mp h
    rcases mem_insertA.mp hw with hh | ⟨hh, _⟩
    · left
      exact congrArg Prod.fst hh
    · right
      exact (mem_keysA t m).mpr ⟨w, hh⟩
  · intro h
    rcases h with h | h
    · subst h
      exact (mem_keysA t _).mpr ⟨v, by simp [mem_insertA]⟩
    · by_cases htk : t = k
      · subst htk
        exact (mem_keysA t _).mpr ⟨v, by simp [mem_insertA]⟩
      · obtain ⟨w, hw⟩ := (mem_keysA t m).mp h
        exact (mem_keysA t _).mpr ⟨w, mem_insertA.mpr (Or.inr ⟨hw, htk⟩)⟩

theorem keysA_nodup_insertA {α β : Type} [DecidableEq α] (k : α) (v : β)
    {m : List (α × β)} (h : (keysA m).Nodup) : (keysA (insertA k v m)).Nodup := by
  unfold insertA keysA
  rw [List.map_cons]
  refine List.nodup_cons.mpr ⟨?_, ?_⟩
  · intro hk
    obtain ⟨p, hp, hpk⟩ := List.mem_map.mp hk
    exact (by simpa using (List.mem_filter.mp hp).2 : p.1 ≠ k) hpk
  · exact ((List.filter_sublist m).map Prod.fst).nodup h

/-! ### Virtual-chunk id assignment: invariants of getVirtualChunks and neededChunks -/

theorem gvcGo_ctr_mono (old : List (Rect × Nat)) (cn : Bool) (ts : List Rect)
    (vcs : List (Rect × Nat)) (ctr : Nat) :
    ctr ≤ (gvcGo old cn ts vcs ctr).2 := by
  induction ts generalizing vcs ctr with
  | nil => exact le_refl ctr
  | cons t ts ih =>
    unfold gvcGo
    cases lookupA t old with
    | some i => exact ih _ _
    | none =>
      cases cn with
      | true => exact le_trans (Nat.le_succ ctr) (ih _ _)
      | false => exact ih _ _

theorem gvcGo_keys_nodup (old : List (Rect × Nat)) (cn : Bool) (ts : List Rect)
    (vcs : List (Rect × Nat)) (ctr : Nat) (h : (keysA vcs).Nodup) :
    (keysA (gvcGo old cn ts vcs ctr).1).Nodup := by
  induction ts generalizing vcs ctr with
  | nil => exact h
  | cons t ts ih =>
    unfold gvcGo
    cases lookupA t old with
    | some i => exact ih _ _ (keysA_nodup_insertA t i h)
    | none =>
      cases cn with
      | true => exact ih _ _ (keysA_nodup_insertA t ctr h)
      | false => exact ih _ _ h

theorem gvcGo_keys_true (old : List (Rect × Nat)) (ts : List Rect)
    (vcs : List (Rect × Nat)) (ctr : Nat) (t : Rect) :
    t ∈ keysA (gvcGo old true ts vcs ctr).1 ↔ t ∈ ts ∨ t ∈ keysA vcs := by
  induction ts generalizing vcs ctr with
  | nil => simp [gvcGo]
  | cons t' ts ih =>
    unfold gvcGo
    cases lookupA t' old with
    | some i =>
      rw [ih, keysA_insertA_mem]
      simp only [List.mem_cons]
      tauto
    | none =>
      dsimp only
      rw [if_pos rfl, ih, keysA_insertA_mem]
      simp only [List.mem_cons]
      tauto

theorem gvcGo_lookup_old (old : List (Rect × Nat)) (cn : Bool) (ts : List Rect)
    (vcs : List (Rect × Nat)) (ctr : Nat) (t : Rect) (i : Nat)
    (hold : lookupA t old = some i)
    (hin : t ∈ ts ∨ lookupA t vcs = some i) :
    lookupA t (gvcGo old cn ts vcs ctr).1 = some i := by
  induction ts generalizing vcs ctr with
  | nil =>
    rcases hin with h | h
    · exact absurd h (List.not_mem_nil t)
    · exact h
  | cons t' ts ih =>
    unfold gvcGo
    by_cases ht : t = t'
    · subst ht
      rw [hold]
      exact ih _ _ (Or.inr (lookupA_insertA_self t i vcs))
    · have hin' : ∀ (w : Nat), t ∈ ts ∨ lookupA t (insertA t' w vcs) = some i := by
        intro w
        rcases hin with h | h
        · rcases List.mem_cons.mp h with h' | h'
          · exact absurd h' ht
          · exact Or.inl h'
        · exact Or.inr (by rw [lookupA_insertA_ne t t' ht]; exact h)
      have hin'' : t ∈ ts ∨ lookupA t vcs = some i := by
        rcases hin with h | h
        · rcases List.mem_cons.mp h with h' | h'
          · exact absurd h' ht
          · exact Or.inl h'
        · exact Or.inr h
      cases lookupA t' old with
      | some j => exact ih _ _ (hin' j)
      | none =>
        cases cn with
        | true => exact ih _ _ (hin' ctr)
        | false => exact ih _ _ hin''

theorem gvcGo_good (old : List (Rect × Nat)) (ctr0 : Nat)
    (holdB : ∀ p ∈ old, p.2 < ctr0) (holdI : pairInj old)
    (ts : List Rect) (vcs : List (Rect × Nat)) (ctr : Nat)
    (hg : goodMap old ctr0 vcs ctr) (hc : ctr0 ≤ ctr) :
    goodMap old ctr0 (gvcGo old true ts vcs ctr).1 (gvcGo old true ts vcs ctr).2 ∧
      ctr0 ≤ (gvcGo old true ts vcs ctr).2 := by
  induction ts generalizing vcs ctr with
  | nil => exact ⟨hg, hc⟩
  | cons t ts ih =>
    unfold gvcGo
    obtain ⟨hnd, hinj, hmem⟩ := hg
    cases hl : lookupA t old with
    | some i =>
      refine ih _ _ ⟨keysA_nodup_insertA t i hnd, ?_, ?_⟩ hc
      · intro p hp q hq hpq
        have hi0 : i < ctr0 := holdB (t, i) (mem_of_lookupA hl)
        rcases mem_insertA.mp hp with hp' | ⟨hp', _⟩ <;>
          rcases mem_insertA.mp hq with hq' | ⟨hq', _⟩
        · rw [hp', hq']
        · rw [hp'] at hpq ⊢
          have hpq' : i = q.2 := hpq
          rcases (hmem q hq').2 with hoq | hfq
          · exact holdI (t, i) (mem_of_lookupA hl) (q.1, q.2) (mem_of_lookupA hoq) hpq'
          · omega
        · rw [hq'] at hpq ⊢
          have hpq' : p.2 = i := hpq
          rcases (hmem p hp').2 with hop | hfp
          · exact holdI (p.1, p.2) (mem_of_lookupA hop) (t, i) (mem_of_lookupA hl) hpq'
          · omega
        · exact hinj p hp' q hq' hpq
      · intro p hp
        rcases mem_insertA.mp hp with hp' | ⟨hp', _⟩
        · rw [hp']
          exact ⟨lt_of_lt_of_le (holdB (t, i) (mem_of_lookupA hl)) hc, Or.inl hl⟩
        · exact hmem p hp'
    | none =>
      refine ih _ _ ⟨keysA_nodup_insertA t ctr hnd, ?_, ?_⟩ (le_trans hc (Nat.le_succ ctr))
      · intro p hp q hq hpq
        rcases mem_insertA.mp hp with hp' | ⟨hp', _⟩ <;>
          rcases mem_insertA.mp hq with hq' | ⟨hq', _⟩
        · rw [hp', hq']
        · rw [hp'] at hpq ⊢
          have hpq' : ctr = q.2 := hpq
          have := (hmem q hq').1
          omega
        · rw [hq'] at hpq ⊢
          have hpq' : p.2 = ctr := hpq
          have := (hmem p hp').1
          omega
        · exact hinj p hp' q hq' hpq
      · intro p hp
        rcases mem_insertA.mp hp with hp' | ⟨hp', _⟩
        · rw [hp']
          exact ⟨Nat.lt_succ_self ctr, Or.inr hc⟩
        · have := hmem p hp'
          exact ⟨lt_trans this.1 (Nat.lt_succ_self ctr), this.2⟩
theorem mem_foldl_insertA (vcs needed : List (Rect × Nat)) (p : Rect × Nat)
    (hp : p ∈ vcs.foldl (fun m q => insertA q.1 q.2 m) needed) :
    p ∈ vcs ∨ p ∈ needed := by
  induction vcs generalizing needed with
  | nil => exact Or.inr hp
  | cons q vs ih =>
    rw [List.foldl_cons] at hp
    rcases ih _ hp with h | h
    · exact Or.inl (List.mem_cons_of_mem q h)
    · rcases mem_insertA.mp h with h' | ⟨h', _⟩
      · rw [show (q.1, q.2) = q from rfl] at h'
        rw [h']
        exact Or.inl (List.mem_cons_self q vs)
      · exact Or.inr h'

theorem keysA_foldl_insertA (vcs needed : List (Rect × Nat)) (t : Rect) :
    t ∈ keysA (vcs.foldl (fun m q => insertA q.1 q.2 m) needed) ↔
      t ∈ keysA vcs ∨ t ∈ keysA needed := by
  induction vcs generalizing needed with
  | nil => simp [keysA]
  | cons q vs ih =>
    rw [List.foldl_cons, ih, keysA_insertA_mem]
    simp only [keysA, List.map_cons, List.mem_cons]
    tauto

theorem keysA_nodup_foldl_insertA (vcs : List (Rect × Nat)) {needed : List (Rect × Nat)}
    (h : (keysA needed).Nodup) :
    (keysA (vcs.foldl (fun m q => insertA q.1 q.2 m) needed)).Nodup := by
  induction vcs generalizing needed with
  | nil => exact h
  | cons q vs ih =>
    rw [List.foldl_cons]
    exact ih (keysA_nodup_insertA q.1 q.2 h)

theorem lookupA_foldl_insertA (vcs needed : List (Rect × Nat)) (t : Rect)
    (hnd : (keysA vcs).Nodup) :
    lookupA t (vcs.foldl (fun m q => insertA q.1 q.2 m) needed) =
      match lookupA t vcs with
      | some v => some v
      | none => lookupA t needed := by
  induction vcs generalizing needed with
  | nil => rfl
  | cons q vs ih =>
    have hnd' : (keysA vs).Nodup := (List.nodup_cons.mp (by simpa [keysA] using hnd)).2
    have hq : q.1 ∉ keysA vs := (List.nodup_cons.mp (by simpa [keysA] using hnd)).1
    rw [List.foldl_cons, ih _ hnd', lookupA_cons]
    by_cases ht : q.1 = t
    · subst ht
      have hnone : lookupA q.1 vs = none := (lookupA_eq_none_iff q.1 vs).mpr hq
      rw [if_pos rfl, hnone]
      exact lookupA_insertA_self q.1 q.2 needed
    · rw [if_neg ht]
      cases hv : lookupA t vs with
      | some v => rfl
      | none =>
        exact lookupA_insertA_ne t q.1 (fun hh => ht hh.symm) q.2 needed

theorem goodMap_merge (old : List (Rect × Nat)) (ctr0 ctrIn ctrOut : Nat)
    (holdB : ∀ p ∈ old, p.2 < ctr0) (holdI : pairInj old)
    (needed vcs : List (Rect × Nat))
    (hgN : goodMap old ctr0 needed ctrIn)
    (hgV : goodMap old ctrIn vcs ctrOut)
    (h01 : ctr0 ≤ ctrIn) (h12 : ctrIn ≤ ctrOut) :
    goodMap old ctr0 (vcs.foldl (fun m q => insertA q.1 q.2 m) needed) ctrOut := by
  obtain ⟨hndN, hinjN, hmemN⟩ := hgN
  obtain ⟨hndV, hinjV, hmemV⟩ := hgV
  refine ⟨keysA_nodup_foldl_insertA vcs hndN, ?_, ?_⟩
  · intro p hp q hq hpq
    rcases mem_foldl_insertA vcs needed p hp with hpV | hpN <;>
      rcases mem_foldl_insertA vcs needed q hq with hqV | hqN
    · exact hinjV p hpV q hqV hpq
    · rcases (hmemV p hpV).2 with hop | hfp
      · rcases (hmemN q hqN).2 with hoq | hfq
        · exact holdI (p.1, p.2) (mem_of_lookupA hop) (q.1, q.2) (mem_of_lookupA hoq) hpq
        · have h1 := holdB (p.1, p.2) (mem_of_lookupA hop)
          have h2 : ctr0 ≤ q.2 := hfq
          omega
      · have h1 := (hmemN q hqN).1
        omega
    · rcases (hmemV q hqV).2 with hoq | hfq
      · rcases (hmemN p hpN).2 with hop | hfp
        · exact holdI (p.1, p.2) (mem_of_lookupA hop) (q.1, q.2) (mem_of_lookupA hoq) hpq
        · have h1 := holdB (q.1, q.2) (mem_of_lookupA hoq)
          have h2 : ctr0 ≤ p.2 := hfp
          omega
      · have h1 := (hmemN p hpN).1
        omega
    · exact hinjN p hpN q hqN hpq
  · intro p hp
    rcases mem_foldl_insertA vcs needed p hp with h | h
    · have := hmemV p h
      exact ⟨this.1, this.2.elim Or.inl (fun hf => Or.inr (le_trans h01 hf))⟩
    · have := hmemN p h
      exact ⟨lt_of_lt_of_le this.1 h12, this.2⟩

theorem buildNeeded_good (cso : PixelSize) (o : Point) (old : List (Rect × Nat))
    (ctr0 : Nat) (holdB : ∀ p ∈ old, p.2 < ctr0) (holdI : pairInj old)
    (rs : List Rect) (needed : List (Rect × Nat)) (ctr : Nat)
    (hg : goodMap old ctr0 needed ctr) (hc : ctr0 ≤ ctr) :
    goodMap old ctr0 (buildNeeded cso o old rs needed ctr).1
      (buildNeeded cso o old rs needed ctr).2 ∧
      ctr ≤ (buildNeeded cso o old rs needed ctr).2 := by
  induction rs generalizing needed ctr with
  | nil => exact ⟨hg, le_refl ctr⟩
  | cons r rs ih =>
    unfold buildNeeded
    have hempty : goodMap old ctr ([] : List (Rect × Nat)) ctr :=
      ⟨List.nodup_nil, fun p hp => absurd hp (List.not_mem_nil p),
        fun p hp => absurd hp (List.not_mem_nil p)⟩
    have holdB2 : ∀ p ∈ old, p.2 < ctr := fun p hp => lt_of_lt_of_le (holdB p hp) hc
    have hgv := gvcGo_good old ctr holdB2 holdI (tileList cso o r) [] ctr hempty (le_refl ctr)
    have hmono := gvcGo_ctr_mono old true (tileList cso o r) [] ctr
    have hmerge := goodMap_merge old ctr0 ctr ((gvcGo old true (tileList cso o r) [] ctr).2)
      holdB holdI needed ((gvcGo old true (tileList cso o r) [] ctr).1) hg hgv.1 hc hmono
    have hrec := ih _ _ hmerge (le_trans hc hmono)
    exact ⟨hrec.1, le_trans hmono hrec.2⟩

theorem buildNeeded_lookup_old (cso : PixelSize) (o : Point) (old : List (Rect × Nat))
    (t : Rect) (i : Nat) (hold : lookupA t old = some i) :
    ∀ (rs : List Rect) (needed : List (Rect × Nat)) (ctr : Nat),
      ((∃ r ∈ rs, t ∈ tileList cso o r) ∨ lookupA t needed = some i) →
      lookupA t (buildNeeded cso o old rs needed ctr).1 = some i := by
  intro rs
  induction rs with
  | nil =>
    intro needed ctr hin
    rcases hin with ⟨r, hr, _⟩ | h
    · exact absurd hr (List.not_mem_nil r)
    · exact h
  | cons r rs ih =>
    intro needed ctr hin
    unfold buildNeeded
    have hnd : (keysA (gvcGo old true (tileList cso o r) [] ctr).1).Nodup :=
      gvcGo_keys_nodup old true _ [] ctr List.nodup_nil
    have hfold := lookupA_foldl_insertA ((gvcGo old true (tileList cso o r) [] ctr).1)
      needed t hnd
    by_cases htr : t ∈ tileList cso o r
    · have hv : lookupA t (gvcGo old true (tileList cso o r) [] ctr).1 = some i :=
        gvcGo_lookup_old old true _ [] ctr t i hold (Or.inl htr)
      apply ih
      right
      rw [hfold, hv]
    · rcases hin with ⟨r2, hr2, ht2⟩ | h
      · rcases List.mem_cons.mp hr2 with h2 | h2
        · subst h2
          exact absurd ht2 htr
        · exact ih _ _ (Or.inl ⟨r2, h2, ht2⟩)
      · have hnone : lookupA t (gvcGo old true (tileList cso o r) [] ctr).1 = none := by
          rw [lookupA_eq_none_iff]
          intro hmem
          rcases (gvcGo_keys_true old (tileList cso o r) [] ctr t).mp hmem with hh | hh
          · exact htr hh
          · exact absurd hh (by simp [keysA])
        apply ih
        right
        rw [hfold, hnone]
        exact h

theorem buildNeeded_keys (cso : PixelSize) (o : Point) (old : List (Rect × Nat)) :
    ∀ (rs : List Rect) (needed : List (Rect × Nat)) (ctr : Nat) (t : Rect),
      t ∈ keysA (buildNeeded cso o old rs needed ctr).1 ↔
        (∃ r ∈ rs, t ∈ tileList cso o r) ∨ t ∈ keysA needed := by
  intro rs
  induction rs with
  | nil =>
    intro needed ctr t
    simp [buildNeeded]
  | cons r rs ih =>
    intro needed ctr t
    unfold buildNeeded
    rw [ih, keysA_foldl_insertA, gvcGo_keys_true]
    rw [show (∃ r2 ∈ r :: rs, t ∈ tileList cso o r2) ↔
      (t ∈ tileList cso o r ∨ ∃ r2 ∈ rs, t ∈ tileList cso o r2) from by
        constructor
        · rintro ⟨r2, hr2, ht2⟩
          rcases List.mem_cons.mp hr2 with h2 | h2
          · subst h2
            exact Or.inl ht2
          · exact Or.inr ⟨r2, h2, ht2⟩
        · rintro (h | ⟨r2, hr2, ht2⟩)
          · exact ⟨r, List.mem_cons_self r rs, h⟩
          · exact ⟨r2, List.mem_cons_of_mem r hr2, ht2⟩]
    simp only [keysA, List.map_nil, List.not_mem_nil, or_false]
    constructor
    · rintro (h | (h | h))
      · exact Or.inl (Or.inr h)
      · exact Or.inl (Or.inl h)
      · exact Or.inr h
    · rintro ((h | h) | h)
      · exact Or.inr (Or.inl h)
      · exact Or.inl h
      · exact Or.inr (Or.inr h)

theorem eq_of_mem_nodup_keys {m : List (Rect × Nat)} (hnd : (keysA m).Nodup)
    {p q : Rect × Nat} (hp : p ∈ m) (hq : q ∈ m) (h : p.1 = q.1) : p = q := by
  induction m with
  | nil => exact absurd hp (List.not_mem_nil p)
  | cons x xs ih =>
    have hx : x.1 ∉ keysA xs := (List.nodup_cons.mp (by simpa [keysA] using hnd)).1
    have hnd2 : (keysA xs).Nodup := (List.nodup_cons.mp (by simpa [keysA] using hnd)).2
    rcases List.mem_cons.mp hp with hp2 | hp2 <;> rcases List.mem_cons.mp hq with hq2 | hq2
    · rw [hp2, hq2]
    · exfalso
      apply hx
      rw [show x.1 = q.1 from by rw [← hp2]; exact h]
      exact (mem_keysA q.1 xs).mpr ⟨q.2, hq2⟩
    · exfalso
      apply hx
      rw [show x.1 = p.1 from by rw [← hq2]; exact h.symm]
      exact (mem_keysA p.1 xs).mpr ⟨p.2, hp2⟩
    · exact ih hnd2 hp2 hq2

theorem applyRects_useVC (cso : PixelSize) (o : Point) (st : ListenerState)
    (rs : List Rect) :
    (applyRects cso o st rs).useVirtualChunks = st.useVirtualChunks := by
  unfold applyRects
  split
  · rfl
  · rfl

theorem applyRectsSeq_useVC (cso : PixelSize) (o : Point) (st : ListenerState)
    (us : List (List Rect)) :
    (applyRectsSeq cso o st us).useVirtualChunks = st.useVirtualChunks := by
  induction us generalizing st with
  | nil => rfl
  | cons u us ih =>
    rw [show applyRectsSeq cso o st (u :: us) =
      applyRectsSeq cso o (applyRects cso o st u) us from rfl, ih, applyRects_useVC]

theorem subscribeState_inv (u : Bool) : VCInv (subscribeState u) :=
  ⟨List.nodup_nil, fun p hp => absurd hp (List.not_mem_nil p),
    fun p hp => absurd hp (List.not_mem_nil p)⟩

theorem applyRects_inv (cso : PixelSize) (o : Point) (st : ListenerState) (rs : List Rect)
    (h : VCInv st) :
    VCInv (applyRects cso o st rs) ∧
      st.virtualChunkIDCounter ≤ (applyRects cso o st rs).virtualChunkIDCounter := by
  obtain ⟨hnd, hinj, hb⟩ := h
  unfold applyRects
  split
  · exact ⟨⟨hnd, hinj, hb⟩, le_refl _⟩
  · have hg0 : goodMap st.virtualChunks st.virtualChunkIDCounter []
        st.virtualChunkIDCounter :=
      ⟨List.nodup_nil, fun p hp => absurd hp (List.not_mem_nil p),
        fun p hp => absurd hp (List.not_mem_nil p)⟩
    have hg := buildNeeded_good cso o st.virtualChunks st.virtualChunkIDCounter hb hinj rs []
      st.virtualChunkIDCounter hg0 (le_refl _)
    exact ⟨⟨hg.1.1, hg.1.2.1, fun p hp => (hg.1.2.2 p hp).1⟩, hg.2⟩

theorem applyRectsSeq_inv (cso : PixelSize) (o : Point) (st : ListenerState)
    (us : List (List Rect)) (h : VCInv st) :
    VCInv (applyRectsSeq cso o st us) ∧
      st.virtualChunkIDCounter ≤ (applyRectsSeq cso o st us).virtualChunkIDCounter := by
  induction us generalizing st with
  | nil => exact ⟨h, le_refl _⟩
  | cons u us ih =>
    have h1 := applyRects_inv cso o st u h
    have h2 := ih (applyRects cso o st u) h1.1
    exact ⟨h2.1, le_trans h1.2 h2.2⟩

theorem applyRects_stable (cso : PixelSize) (o : Point) (st : ListenerState)
    (rs : List Rect) (t : Rect) (i : Nat)
    (huvc : st.useVirtualChunks = true)
    (hl : lookupA t st.virtualChunks = some i)
    (ht : ∃ r ∈ rs, t ∈ tileList cso o r) :
    lookupA t (applyRects cso o st rs).virtualChunks = some i := by
  unfold applyRects
  rw [huvc]
  exact buildNeeded_lookup_old cso o st.virtualChunks t i hl rs []
    st.virtualChunkIDCounter (Or.inl ht)

theorem applyRects_fresh (cso : PixelSize) (o : Point) (st : ListenerState)
    (rs : List Rect) (t : Rect)
    (huvc : st.useVirtualChunks = true) (hinv : VCInv st)
    (hn : lookupA t st.virtualChunks = none)
    (ht : ∃ r ∈ rs, t ∈ tileList cso o r) :
    ∃ j, lookupA t (applyRects cso o st rs).virtualChunks = some j ∧
      st.virtualChunkIDCounter ≤ j := by
  obtain ⟨hnd, hinj, hb⟩ := hinv
  have hg0 : goodMap st.virtualChunks st.virtualChunkIDCounter []
      st.virtualChunkIDCounter :=
    ⟨List.nodup_nil, fun p hp => absurd hp (List.not_mem_nil p),
      fun p hp => absurd hp (List.not_mem_nil p)⟩
  have hgood := buildNeeded_good cso o st.virtualChunks st.virtualChunkIDCounter hb hinj rs []
    st.virtualChunkIDCounter hg0 (le_refl _)
  have hkey : t ∈ keysA (buildNeeded cso o st.virtualChunks rs []
      st.virtualChunkIDCounter).1 :=
    (buildNeeded_keys cso o st.virtualChunks rs [] st.virtualChunkIDCounter t).mpr (Or.inl ht)
  obtain ⟨j, hj⟩ := lookupA_isSome_of_mem_keysA hkey
  refine ⟨j, ?_, ?_⟩
  · unfold applyRects
    rw [huvc]
    exact hj
  · have hmem := hgood.1.2.2 (t, j) (mem_of_lookupA hj)
    rcases hmem.2 with ho | hf
    · rw [show ((t, j) : Rect × Nat).1 = t from rfl, hn] at ho
      cases ho
    · exact hf

theorem handleListenerRects_state (can : Canvas) (bs : Broadcast) (l : Nat)
    (st : ListenerState) (rs : List Rect) (h : lookupA l bs.listeners = some st) :
    (handleListenerRects can bs l rs).1.listeners =
      insertA l (applyRects can.chunkSize can.origin st rs) bs.listeners := by
  unfold handleListenerRects applyRects
  rw [h]
  dsimp only
  cases hu : st.useVirtualChunks <;> rfl

/-- C9: after the broadcast loop handles a ListenerRects event with
rectangles `rs` for a subscribed virtual-chunk listener, the listener's
`virtualChunks` key set equals exactly the union, over the rectangles of
`rs`, of the tiles of the outer chunk rectangle — no tile more, no tile
fewer. -/
theorem viewport_minimality (can : Canvas) (bs : Broadcast) (l : Nat)
    (st : ListenerState) (rs : List Rect) (t : Rect)
    (h : lookupA l bs.listeners = some st) (huvc : st.useVirtualChunks = true) :
    ∃ st', lookupA l (handleListenerRects can bs l rs).1.listeners = some st' ∧
      (t ∈ keysA st'.virtualChunks ↔ ∃ r ∈ rs, t ∈ tileList can.chunkSize can.origin r) := by
  refine ⟨applyRects can.chunkSize can.origin st rs, ?_, ?_⟩
  · rw [handleListenerRects_state can bs l st rs h]
    exact lookupA_insertA_self l _ bs.listeners
  · show t ∈ keysA (applyRects can.chunkSize can.origin st rs).virtualChunks ↔ _
    unfold applyRects
    rw [huvc]
    show t ∈ keysA (buildNeeded can.chunkSize can.origin st.virtualChunks rs []
      st.virtualChunkIDCounter).1 ↔ _
    rw [buildNeeded_keys]
    simp [keysA]

/-- Witness for C9 at a concrete input (the S2 viewport scenario: one
listener, chunk size 256×256, viewport [0,100)²; the single needed tile is
[0,256)²). -/
theorem viewport_minimality_witness :
    ∃ st', lookupA 7 (handleListenerRects
        (newCanvas ⟨256, 256⟩ ⟨0, 0⟩ ⟨⟨-10000, -10000⟩, ⟨10000, 10000⟩⟩)
        ⟨[(7, subscribeState true)]⟩ 7 [⟨⟨0, 0⟩, ⟨100, 100⟩⟩]).1.listeners = some st' ∧
      ((⟨⟨0, 0⟩, ⟨256, 256⟩⟩ : Rect) ∈ keysA st'.virtualChunks ↔
        ∃ r ∈ [(⟨⟨0, 0⟩, ⟨100, 100⟩⟩ : Rect)], (⟨⟨0, 0⟩, ⟨256, 256⟩⟩ : Rect) ∈
          tileList (newCanvas ⟨256, 256⟩ ⟨0, 0⟩
            ⟨⟨-10000, -10000⟩, ⟨10000, 10000⟩⟩).chunkSize
            (newCanvas ⟨256, 256⟩ ⟨0, 0⟩
              ⟨⟨-10000, -10000⟩, ⟨10000, 10000⟩⟩).origin r) :=
  viewport_minimality (newCanvas ⟨256, 256⟩ ⟨0, 0⟩ ⟨⟨-10000, -10000⟩, ⟨10000, 10000⟩⟩)
    ⟨[(7, subscribeState true)]⟩ 7 (subscribeState true) [⟨⟨0, 0⟩, ⟨100, 100⟩⟩]
    ⟨⟨0, 0⟩, ⟨256, 256⟩⟩ (by decide) (by decide)

/-- C8: virtual-chunk id assignment for a listener: (i) the id counter
starts at 1 on subscribe; (ii) a tile present in consecutive viewport
updates keeps its id (and the broadcast handler stores exactly the updated
state); (iii) a tile that was present, was removed, and is re-added by a
later update receives a fresh id different from the one it had; (iv) ids
are unique within a listener's state, for every state reachable from
subscribe by viewport updates. -/
theorem virtual_chunk_id_properties :
    (∀ u : Bool, (subscribeState u).virtualChunkIDCounter = 1) ∧
    (∀ (can : Canvas) (bs : Broadcast) (l : Nat) (st : ListenerState) (rs : List Rect)
      (t : Rect) (i : Nat), lookupA l bs.listeners = some st →
      st.useVirtualChunks = true →
      lookupA t st.virtualChunks = some i →
      (∃ r ∈ rs, t ∈ tileList can.chunkSize can.origin r) →
      lookupA l (handleListenerRects can bs l rs).1.listeners =
        some (applyRects can.chunkSize can.origin st rs) ∧
      lookupA t (applyRects can.chunkSize can.origin st rs).virtualChunks = some i) ∧
    (∀ (cso : PixelSize) (o : Point) (us1 us2 : List (List Rect)) (t : Rect) (i : Nat)
      (rs : List Rect),
      lookupA t (applyRectsSeq cso o (subscribeState true) us1).virtualChunks = some i →
      lookupA t (applyRectsSeq cso o (applyRectsSeq cso o (subscribeState true) us1)
        us2).virtualChunks = none →
      (∃ r ∈ rs, t ∈ tileList cso o r) →
      ∃ j, lookupA t (applyRects cso o
        (applyRectsSeq cso o (applyRectsSeq cso o (subscribeState true) us1) us2)
        rs).virtualChunks = some j ∧ j ≠ i) ∧
    (∀ (cso : PixelSize) (o : Point) (u : Bool) (us : List (List Rect))
      (p q : Rect × Nat),
      p ∈ (applyRectsSeq cso o (subscribeState u) us).virtualChunks →
      q ∈ (applyRectsSeq cso o (subscribeState u) us).virtualChunks →
      p.2 = q.2 → p = q) := by
  refine ⟨fun u => rfl, ?_, ?_, ?_⟩
  · intro can bs l st rs t i h huvc hl ht
    refine ⟨?_, applyRects_stable can.chunkSize can.origin st rs t i huvc hl ht⟩
    rw [handleListenerRects_state can bs l st rs h]
    exact lookupA_insertA_self l _ bs.listeners
  · intro cso o us1 us2 t i rs h1 h2 ht
    have hinv1 := applyRectsSeq_inv cso o (subscribeState true) us1 (subscribeState_inv true)
    have hinv2 := applyRectsSeq_inv cso o (applyRectsSeq cso o (subscribeState true) us1)
      us2 hinv1.1
    have huvc2 : (applyRectsSeq cso o (applyRectsSeq cso o (subscribeState true) us1)
        us2).useVirtualChunks = true := by
      rw [applyRectsSeq_useVC, applyRectsSeq_useVC]
      rfl
    obtain ⟨j, hj, hcj⟩ := applyRects_fresh cso o
      (applyRectsSeq cso o (applyRectsSeq cso o (subscribeState true) us1) us2)
      rs t huvc2 hinv2.1 h2 ht
    refine ⟨j, hj, ?_⟩
    have hi : i < (applyRectsSeq cso o (subscribeState true) us1).virtualChunkIDCounter :=
      hinv1.1.2.2 (t, i) (mem_of_lookupA h1)
    have hmono := hinv2.2
    omega
  · intro cso o u us p q hp hq hpq
    have hinv := applyRectsSeq_inv cso o (subscribeState u) us (subscribeState_inv u)
    exact eq_of_mem_nodup_keys hinv.1.1 hp hq (hinv.1.2.1 p hp q hq hpq)

/-- Witness for C8 at a concrete input (the S2 scenario: viewport [0,100)²
then [300,400)² then [0,100)² again; the re-added tile [0,256)² had id 1
and gets a different fresh id). -/
theorem virtual_chunk_id_properties_witness :
    ∃ j, lookupA (⟨⟨0, 0⟩, ⟨256, 256⟩⟩ : Rect) (applyRects ⟨256, 256⟩ ⟨0, 0⟩
      (applyRectsSeq ⟨256, 256⟩ ⟨0, 0⟩
        (applyRectsSeq ⟨256, 256⟩ ⟨0, 0⟩ (subscribeState true) [[⟨⟨0, 0⟩, ⟨100, 100⟩⟩]])
        [[⟨⟨300, 300⟩, ⟨400, 400⟩⟩]])
      [⟨⟨0, 0⟩, ⟨100, 100⟩⟩]).virtualChunks = some j ∧ j ≠ 1 :=
  virtual_chunk_id_properties.2.2.1 ⟨256, 256⟩ ⟨0, 0⟩ [[⟨⟨0, 0⟩, ⟨100, 100⟩⟩]]
    [[⟨⟨300, 300⟩, ⟨400, 400⟩⟩]] ⟨⟨0, 0⟩, ⟨256, 256⟩⟩ 1 [⟨⟨0, 0⟩, ⟨100, 100⟩⟩]
    (by decide) (by decide) (by decide)


end D3pixelbot
